import Mathlib

/-!
Moneyball FM24 app: validation, error classification and upload state.

A shallow embedding of `src/utils/errorHandling.js`, of the upload state of
`src/pages/UploadForm.js` and of the orchestrator of
`src/pages/ProcessingPage.js`, with the properties of the specification proved
(or refuted) over it.

Conventions of the embedding.

* A JavaScript string is a Lean `String`; `includes` and `endsWith` compare
  runs of characters.
* `String.prototype.toLowerCase` is a built-in of the runtime, not code of the
  repository.  Every function that calls it takes it as the explicit argument
  `toLowerCase : String → String`, so that the theorems hold whatever the
  runtime's case mapping is.  `asciiLowerCase` is the mapping on ASCII letters;
  it agrees with the built-in on ASCII strings and is used to evaluate the
  functions on concrete ASCII inputs.
* `new Date().toISOString()` is the explicit argument `now : String`.
* A thrown exception is the `Except.error` branch of the result.
* An awaited call is its outcome: `file.text()` is the `text` field of the
  file, and the calls into the Python runtime are the fields of `External`,
  whose `error` outcomes hold the thrown value, whatever it is.
  One asynchronous function runs from start to end without interleaving.
* The operation handed to `retryOperation` is the sequence of the outcomes of
  its invocations; the waits between attempts are not modelled.
-/

namespace Moneyball

deriving instance DecidableEq for Except

/-! ## Strings -/

/-- Characters of `t` occur in `s` as one contiguous run, searched from the left. -/
def includesChars : List Char → List Char → Bool
  | [], t => t.isPrefixOf []
  | c :: s, t => t.isPrefixOf (c :: s) || includesChars s t

/-- Embedding of `s.includes(t)`. -/
def includes (s t : String) : Bool := includesChars s.data t.data

/-- Embedding of `s.endsWith(t)`. -/
def endsWith (s t : String) : Bool := t.data.isSuffixOf s.data

/-- Lower-casing of the ASCII letters, every other character unchanged. -/
def asciiLowerCase (s : String) : String := ⟨s.data.map Char.toLower⟩

/-- Embedding of `s.length`: the number of UTF-16 code units, two for a
character outside the basic plane. -/
def jsLength (s : String) : Nat :=
  (s.data.map (fun c => if c.toNat < 65536 then 1 else 2)).sum

/-! ## Files -/

/-- Outcome of the suspending read `file.text()`: the text, or the message of
the `DOMException` that a browser `File` rejects the read with. -/
inductive ReadResult where
  | ok (content : String)
  | failed (reason : String)
  deriving DecidableEq, Repr

/-- Browser `File` handle: its name, its size in bytes and what reading it gives. -/
structure File where
  name : String
  size : Nat
  text : ReadResult
  deriving DecidableEq, Repr

namespace ErrorHandling

/-- The constant `maxSize` of `validateFile`: `10 * 1024 * 1024`. -/
def maxSize : Nat := 10 * 1024 * 1024

/-- Embedding of `(size / 1024 / 1024).toFixed(2)`.  Dividing an integer below
`2^53` by `2^20` is exact in binary floating point, and `toFixed(2)` picks the
integer `n` with `n / 100` closest to the value, the larger one on a tie; so
`n = ⌊(200 * size + 2^20) / 2^21⌋`, printed with two decimals. -/
def toFixed2MB (size : Nat) : String :=
  let n := (200 * size + 2 ^ 20) / 2 ^ 21
  toString (n / 100) ++ "." ++ String.mk [Nat.digitChar (n % 100 / 10), Nat.digitChar (n % 10)]

/-- Violation pushed when the lower-cased name does not end with `.html`. -/
def formatViolation : String := "File must be an HTML file (.html)"

/-- Violation pushed when the size exceeds `maxSize`. -/
def tooLargeViolation (size : Nat) : String :=
  "File size (" ++ toFixed2MB size ++ "MB) exceeds the 10MB limit"

/-- Violation pushed when the size is below 1000 bytes. -/
def tooSmallViolation : String :=
  "File appears to be empty or too small to contain FM24 data"

/-- Embedding of `validateFile` of `utils/errorHandling.js`; `none` is a
null or undefined argument. -/
def validateFile (toLowerCase : String → String) (file : Option File) : List String :=
  let errors : List String := []
  match file with
  | none => errors ++ ["No file provided"]
  | some file =>
    let errors :=
      if !endsWith (toLowerCase file.name) ".html" then errors ++ [formatViolation] else errors
    let errors :=
      if file.size > maxSize then errors ++ [tooLargeViolation file.size] else errors
    let errors :=
      if file.size < 1000 then errors ++ [tooSmallViolation] else errors
    errors

/-! ### Error taxonomy and classifier -/

/-- Primitive JavaScript values. -/
inductive Prim where
  | undefined
  | null
  | bool (b : Bool)
  | num (n : Int)
  | str (s : String)
  deriving DecidableEq, Repr

/-- Failure value handed to the classifier: a primitive, or an object whose
`message` property holds the given primitive (`undefined` when the object has
no such property). -/
inductive JsValue where
  | prim (p : Prim)
  | obj (message : Prim)
  deriving DecidableEq, Repr

/-- Exceptions the classifier itself can raise. -/
inductive Thrown where
  | typeError
  deriving DecidableEq, Repr

/-- The six values of the constant object `ErrorTypes`. -/
def ErrorTypes.NETWORK_ERROR : String := "NETWORK_ERROR"
/-- Validation kind. -/
def ErrorTypes.FILE_VALIDATION_ERROR : String := "FILE_VALIDATION_ERROR"
/-- Transformation kind. -/
def ErrorTypes.PROCESSING_ERROR : String := "PROCESSING_ERROR"
/-- Environment kind. -/
def ErrorTypes.PYODIDE_ERROR : String := "PYODIDE_ERROR"
/-- Platform-compatibility kind. -/
def ErrorTypes.BROWSER_COMPATIBILITY_ERROR : String := "BROWSER_COMPATIBILITY_ERROR"
/-- Unknown kind. -/
def ErrorTypes.UNKNOWN_ERROR : String := "UNKNOWN_ERROR"

/-- All values of `ErrorTypes`, in declaration order. -/
def ErrorTypes.values : List String :=
  [ErrorTypes.NETWORK_ERROR, ErrorTypes.FILE_VALIDATION_ERROR, ErrorTypes.PROCESSING_ERROR,
   ErrorTypes.PYODIDE_ERROR, ErrorTypes.BROWSER_COMPATIBILITY_ERROR, ErrorTypes.UNKNOWN_ERROR]

/-- Object built by `createError`. -/
structure ErrorRecord where
  type : String
  message : Prim
  details : Prim
  timestamp : String
  deriving DecidableEq, Repr

/-- Embedding of `createError(type, message, details)`; the source's default
`details = null` is passed explicitly by the callers that omit it. -/
def createError (now : String) (type : String) (message : Prim) (details : Prim) : ErrorRecord :=
  { type := type, message := message, details := details, timestamp := now }

/-- Embedding of `error?.message`: `undefined` for null, undefined and for
primitives, which have no `message` property. -/
def optMessage : JsValue → Prim
  | .prim _ => .undefined
  | .obj m => m

/-- Embedding of `error.message`: reading a property of null or undefined throws. -/
def getMessage : JsValue → Except Thrown Prim
  | .prim .undefined => .error .typeError
  | .prim .null => .error .typeError
  | .prim _ => .ok .undefined
  | .obj m => .ok m

/-- JavaScript truthiness of a primitive. -/
def truthy : Prim → Bool
  | .undefined => false
  | .null => false
  | .bool b => b
  | .num n => n != 0
  | .str s => s != ""

/-- Embedding of `v || d`. -/
def orElse (v d : Prim) : Prim := if truthy v then v else d

/-- Line 34: `error?.message?.toLowerCase() || ''`.  The optional chain stops at
a null or undefined message; a boolean or a number has no `toLowerCase`, so
calling it throws. -/
def lowerMessage (toLowerCase : String → String) (error : JsValue) : Except Thrown String :=
  match optMessage error with
  | .undefined => .ok ""
  | .null => .ok ""
  | .str s => .ok (toLowerCase s)
  | .bool _ => .error .typeError
  | .num _ => .error .typeError

/-- Embedding of `getUserFriendlyError`. -/
def getUserFriendlyError (toLowerCase : String → String) (now : String) (error : JsValue) :
    Except Thrown ErrorRecord :=
  match lowerMessage toLowerCase error with
  | .error e => .error e
  | .ok message =>
    if includes message "network" || includes message "fetch" then
      .ok (createError now ErrorTypes.NETWORK_ERROR (.str "Network connection failed") .null)
    else if includes message "pyodide" || includes message "python" then
      .ok (createError now ErrorTypes.PYODIDE_ERROR
        (.str "Python environment initialization failed") .null)
    else if includes message "file" || includes message "html" || includes message "parse" then
      .ok (createError now ErrorTypes.FILE_VALIDATION_ERROR
        (.str "Invalid file format or content") .null)
    else if includes message "webassembly" || includes message "wasm" then
      .ok (createError now ErrorTypes.BROWSER_COMPATIBILITY_ERROR
        (.str "Browser compatibility issue") .null)
    else if includes message "processing" || includes message "analysis" then
      .ok (createError now ErrorTypes.PROCESSING_ERROR (.str "Data processing failed") .null)
    else
      match getMessage error with
      | .error e => .error e
      | .ok raw =>
        .ok (createError now ErrorTypes.UNKNOWN_ERROR
          (orElse raw (.str "Unknown error occurred")) .null)

/-- Classification rules as the specification words them: keyword groups with
their kind, in priority order. -/
def classificationRules : List (List String × String) :=
  [ (["network", "fetch"], ErrorTypes.NETWORK_ERROR),
    (["pyodide", "python"], ErrorTypes.PYODIDE_ERROR),
    (["file", "html", "parse"], ErrorTypes.FILE_VALIDATION_ERROR),
    (["webassembly", "wasm"], ErrorTypes.BROWSER_COMPATIBILITY_ERROR),
    (["processing", "analysis"], ErrorTypes.PROCESSING_ERROR) ]

/-- Kind chosen by the specification's wording: the kind of the first rule one
of whose keywords occurs in the lower-cased message, the unknown kind when no
rule matches. -/
def classifyByPriority (lowered : String) : String :=
  match classificationRules.find? (fun rule => rule.1.any (fun kw => includes lowered kw)) with
  | some rule => rule.2
  | none => ErrorTypes.UNKNOWN_ERROR

/-! ### Content validation -/

/-- First violation of `validateFileContent`: neither `<html` nor `<table` occurs. -/
def htmlExportViolation : String := "File does not appear to be a valid HTML export from FM24"

/-- Second violation: one of the required elements is missing. -/
def tableStructureViolation : String := "File does not contain expected FM24 table structure"

/-- Third violation: fewer than 5000 code units. -/
def contentTooSmallViolation : String :=
  "File content appears too small to contain meaningful player data"

/-- Fourth violation: fewer than two player data indicators. -/
def playerDataViolation : String := "File does not appear to contain player data from FM24"

/-- The constant array `requiredElements`. -/
def requiredElements : List String := ["<table", "<tbody", "<tr"]

/-- The constant array `playerDataIndicators`. -/
def playerDataIndicators : List String := ["Name", "Position", "Age", "Club"]

/-- Embedding of `validateFileContent`: the awaited `file.text()` is the `text`
field of the file, and a rejected read is the `catch` branch. -/
def validateFileContent (file : File) : List String :=
  match file.text with
  | .ok content =>
    let errors : List String := []
    let errors :=
      if !includes content "<html" && !includes content "<table" then
        errors ++ [htmlExportViolation]
      else errors
    let missingElements := requiredElements.filter (fun element => !includes content element)
    let errors :=
      if missingElements.length > 0 then errors ++ [tableStructureViolation] else errors
    let errors :=
      if jsLength content < 5000 then errors ++ [contentTooSmallViolation] else errors
    let foundIndicators := playerDataIndicators.filter (fun indicator => includes content indicator)
    let errors :=
      if foundIndicators.length < 2 then errors ++ [playerDataViolation] else errors
    errors
  | .failed reason => ["Failed to read file content: " ++ reason]

/-- Number of the four field tokens that occur in the content, counted the
way the specification words it. -/
def tokensFound (content : String) : Nat :=
  (if includes content "Name" then 1 else 0) + (if includes content "Position" then 1 else 0)
    + (if includes content "Age" then 1 else 0) + (if includes content "Club" then 1 else 0)

/-! ### User-facing texts and retries -/

/-- The constant object `errorMessages` of `getErrorMessage`, as its entries. -/
def errorMessages : List (String × String) :=
  [ (ErrorTypes.NETWORK_ERROR,
      "Network connection failed. Please check your internet connection and try again."),
    (ErrorTypes.FILE_VALIDATION_ERROR,
      "The uploaded file is invalid or corrupted. Please check that you've exported the correct HTML file from FM24."),
    (ErrorTypes.PROCESSING_ERROR,
      "Error processing your FM24 data. Please ensure your files contain valid player statistics."),
    (ErrorTypes.PYODIDE_ERROR,
      "Python processing environment failed to initialize. Please refresh the page and try again."),
    (ErrorTypes.BROWSER_COMPATIBILITY_ERROR,
      "Your browser may not support all required features. Please try using a modern browser like Chrome, Firefox, or Safari."),
    (ErrorTypes.UNKNOWN_ERROR,
      "An unexpected error occurred. Please try again or refresh the page.") ]

/-- Embedding of `errorMessages[key]`: the text of an own entry, `undefined`
for any other key (properties inherited from `Object.prototype` are not
modelled). -/
def errorMessagesAt (key : String) : Prim :=
  match errorMessages.lookup key with
  | some text => .str text
  | none => .undefined

/-- Embedding of `getErrorMessage`:
`errorMessages[error.type] || error.message || errorMessages[UNKNOWN_ERROR]`. -/
def getErrorMessage (error : ErrorRecord) : Prim :=
  orElse (orElse (errorMessagesAt error.type) error.message)
    (errorMessagesAt ErrorTypes.UNKNOWN_ERROR)

/-- Values that `retryOperation` throws: the record built by
`getUserFriendlyError`, the exception that `getUserFriendlyError` raised
instead, or `lastError` as it is. -/
inductive RetryThrown where
  | record (r : ErrorRecord)
  | exception (t : Thrown)
  | value (v : JsValue)
  deriving DecidableEq, Repr

/-- How a call of `retryOperation` ends. -/
inductive RetryOutcome (α : Type) where
  | returned (value : α)
  | threw (t : RetryThrown)
  deriving DecidableEq, Repr

/-- End of a call of `retryOperation`, with the number of times it has invoked
the operation as a ghost field. -/
structure RetryResult (α : Type) where
  outcome : RetryOutcome α
  invocations : Nat
  deriving DecidableEq, Repr

/-- What `throw getUserFriendlyError(error)` throws. -/
def throwClassified (classified : Except Thrown ErrorRecord) : RetryThrown :=
  match classified with
  | .ok r => .record r
  | .error t => .exception t

/-- The `for` loop of `retryOperation` from the test of its condition on, with
the statement `throw lastError` after it.  `operation k` is the outcome of the
`k`-th invocation of the operation, `invoked` counts the invocations made so
far, and `none` means that the fuel ran out.  The waits between attempts take
time only and are left out. -/
def retryLoop {α : Type} (toLowerCase : String → String) (now : String)
    (operation : Nat → Except JsValue α) (maxRetries : Int) :
    Nat → Nat → JsValue → Nat → Option (RetryResult α)
  | 0, _, _, _ => none
  | fuel + 1, attempt, lastError, invoked =>
    if (attempt : Int) ≤ maxRetries then
      match operation (invoked + 1) with
      | .ok value => some { outcome := .returned value, invocations := invoked + 1 }
      | .error error =>
        if (attempt : Int) = maxRetries then
          some { outcome := .threw (throwClassified (getUserFriendlyError toLowerCase now error)),
                 invocations := invoked + 1 }
        else
          retryLoop toLowerCase now operation maxRetries fuel (attempt + 1) error (invoked + 1)
    else
      some { outcome := .threw (.value lastError), invocations := invoked }

/-- Embedding of `retryOperation(operation, maxRetries, delay)`: `attempt`
starts at 1 and `lastError` is unset.  `maxRetries` is the integer count that
the callers pass.  The condition fails at the latest in round
`maxRetries + 1`, so that much fuel is given. -/
def retryOperation {α : Type} (toLowerCase : String → String) (now : String)
    (operation : Nat → Except JsValue α) (maxRetries : Int) : Option (RetryResult α) :=
  retryLoop toLowerCase now operation maxRetries (maxRetries.toNat + 1) 1 (.prim .undefined) 0

end ErrorHandling

namespace UploadForm

/-- The three slot keys used by the upload page. -/
inductive Role where
  | signed
  | loans
  | universal
  deriving DecidableEq, Repr

/-- State variable `files`. -/
structure Files where
  signed : Option File
  loans : Option File
  universal : Option File
  deriving DecidableEq, Repr

/-- State of the `UploadForm` component. -/
structure State where
  files : Files
  errors : List String
  isValidating : Bool
  deriving DecidableEq, Repr

/-- Initial values of the three `useState` calls. -/
def State.init : State :=
  { files := { signed := none, loans := none, universal := none }, errors := [],
    isValidating := false }

/-- Reading `files[type]`. -/
def Files.get (fs : Files) : Role → Option File
  | .signed => fs.signed
  | .loans => fs.loans
  | .universal => fs.universal

/-- The update `{ ...prev, [type]: file }`. -/
def Files.set (fs : Files) (type : Role) (file : File) : Files :=
  match type with
  | .signed => { fs with signed := some file }
  | .loans => { fs with loans := some file }
  | .universal => { fs with universal := some file }

/-- Embedding of the component's local `validateFile`. -/
def validateFile (toLowerCase : String → String) (file : File) : List String :=
  let validations : List String := []
  let validations :=
    if !endsWith (toLowerCase file.name) ".html" then
      validations ++ [file.name ++ ": Must be an HTML file"]
    else validations
  let validations :=
    if file.size > 10 * 1024 * 1024 then
      validations ++ [file.name ++ ": File size must be under 10MB"]
    else validations
  validations

/-- Embedding of `handleFileSelect(type, file)` as a state transformer. -/
def handleFileSelect (toLowerCase : String → String) (type : Role) (file : File) (st : State) :
    State :=
  let fileErrors := validateFile toLowerCase file
  if fileErrors.length > 0 then
    { st with errors := st.errors.filter (fun e => !includes e file.name) ++ fileErrors }
  else
    { st with
      errors := st.errors.filter (fun e => !includes e file.name)
      files := st.files.set type file }

/-- Embedding of `resetFiles`. -/
def resetFiles (st : State) : State :=
  { st with files := { signed := none, loans := none, universal := none }, errors := [] }

/-- Truthiness of `files.signed && files.loans && files.universal`. -/
def allFilesUploaded (st : State) : Bool :=
  st.files.signed.isSome && st.files.loans.isSome && st.files.universal.isSome

/-- User actions on the upload page that change the slots. -/
inductive Action where
  | select (type : Role) (file : File)
  | reset
  deriving DecidableEq, Repr

/-- Effect of one action on the component state. -/
def step (toLowerCase : String → String) (st : State) : Action → State
  | .select type file => handleFileSelect toLowerCase type file st
  | .reset => resetFiles st

/-- State reached from `st` by a sequence of actions, oldest first. -/
def run (toLowerCase : String → String) (actions : List Action) (st : State) : State :=
  actions.foldl (step toLowerCase) st

/-- Reading of the history, most recent action first: the role was offered a
file with zero violations and no reset came after it. -/
def acceptedRecent (toLowerCase : String → String) (role : Role) : List Action → Bool
  | [] => false
  | .reset :: _ => false
  | .select type file :: earlier =>
    (decide (type = role) && decide (validateFile toLowerCase file = []))
      || acceptedRecent toLowerCase role earlier

/-- The role has received, since the last reset, at least one `handleFileSelect`
call whose validation returned zero violations (`actions` oldest first). -/
def acceptedSinceReset (toLowerCase : String → String) (role : Role) (actions : List Action) :
    Bool :=
  acceptedRecent toLowerCase role actions.reverse

/-- Message pushed by `validateAllFiles` for an empty slot. -/
def requiredMessage : Role → String
  | .signed => "Signed players HTML file is required"
  | .loans => "Loans HTML file is required"
  | .universal => "Universal players HTML file is required"

/-- Body of the loop of `validateAllFiles` for one slot: nothing for an empty
slot, else the content checks, or the `catch` message when the read fails. -/
def contentErrors : Option File → List String
  | none => []
  | some file =>
    match file.text with
    | .ok content =>
      let allErrors : List String := []
      let allErrors :=
        if !includes content "<table" && !includes content "<tbody" then
          allErrors ++ [file.name ++ ": Does not appear to contain FM24 table data"]
        else allErrors
      let allErrors :=
        if jsLength content < 1000 then
          allErrors ++ [file.name ++ ": File seems too small to contain player data"]
        else allErrors
      allErrors
    | .failed _ => [file.name ++ ": Error reading file content"]

/-- Embedding of `validateAllFiles`: the state after it and the returned
boolean.  The loop visits the slots in the key order signed, loans, universal. -/
def validateAllFiles (st : State) : State × Bool :=
  let allErrors : List String := []
  let allErrors :=
    if st.files.signed.isNone then allErrors ++ [requiredMessage .signed] else allErrors
  let allErrors :=
    if st.files.loans.isNone then allErrors ++ [requiredMessage .loans] else allErrors
  let allErrors :=
    if st.files.universal.isNone then allErrors ++ [requiredMessage .universal] else allErrors
  let allErrors := allErrors ++ contentErrors st.files.signed
  let allErrors := allErrors ++ contentErrors st.files.loans
  let allErrors := allErrors ++ contentErrors st.files.universal
  ({ st with errors := allErrors, isValidating := false }, allErrors.length == 0)

/-- Embedding of `handleSubmit`: the state after it and, when it navigates to
`/processing`, the files handed over as the navigation state. -/
def handleSubmit (st : State) : State × Option Files :=
  let result := validateAllFiles st
  (result.1, if result.2 then some st.files else none)

end UploadForm

/-! ## Orchestrator (`pages/ProcessingPage.js`) -/

namespace ProcessingPage

/-- Calls observed during a run: `updateProgress(step, percent)` and
`markStepComplete(step)`, the latter with the value it stores in `completedSteps`. -/
inductive Event where
  | progress (step : Nat) (percent : Int)
  | completed (step : Nat) (steps : List Nat)
  deriving DecidableEq, Repr

/-- The `Blob` built from the engine result: its bytes and its media type. -/
structure Blob where
  bytes : List Nat
  type : String
  deriving DecidableEq, Repr

/-- What `runPython` returns for the call of `main`: a bytes proxy, or a value
whose conversion by `new Uint8Array(result.toJs())` throws a `TypeError` with
the given message. -/
inductive EngineResult where
  | bytes (b : List Nat)
  | unconvertible (reason : String)
  deriving DecidableEq, Repr

/-- Outcomes of the external calls of a run, in source order; an `error` holds
the value that the call throws or rejects with, which may be any value, also
null or undefined. -/
structure External where
  loadPyodide : Except ErrorHandling.JsValue Unit
  loadPackages : Except ErrorHandling.JsValue Unit
  loadMicropip : Except ErrorHandling.JsValue Unit
  pyimportMicropip : Except ErrorHandling.JsValue Unit
  installHtml5lib : Except ErrorHandling.JsValue Unit
  fetchScript : Except ErrorHandling.JsValue Unit
  responseText : Except ErrorHandling.JsValue Unit
  runScript : Except ErrorHandling.JsValue Unit
  setSigned : Except ErrorHandling.JsValue Unit
  setLoans : Except ErrorHandling.JsValue Unit
  setUniversal : Except ErrorHandling.JsValue Unit
  runMain : String → String → String → Except ErrorHandling.JsValue EngineResult

/-- Calls out of `processFiles` that are observed during a run: the read of a
slot, `files.<role>.text()`, and the call of the engine entry point `main` with
the three texts held by the globals `signed_html`, `loans_html`,
`universal_html`. -/
inductive Call where
  | read (role : UploadForm.Role)
  | engine (signed loans universal : String)
  deriving DecidableEq, Repr

/-- State variables of the `ProcessingPage` component that the orchestrator
writes, and the observed calls as ghost fields: `log` for the calls of
`updateProgress` and `markStepComplete`, `calls` for the reads and the engine. -/
structure State where
  currentStep : Nat
  progress : Int
  pyodide : Bool
  processingError : Option String
  completedSteps : List Nat
  showEmailInput : Bool
  excelBlob : Option Blob
  log : List Event
  calls : List Call
  deriving DecidableEq, Repr

/-- Initial values of the `useState` calls. -/
def State.init : State :=
  { currentStep := 1, progress := 0, pyodide := false, processingError := none,
    completedSteps := [], showEmailInput := false, excelBlob := none, log := [],
    calls := [] }

/-- Embedding of `updateProgress(step, progress)`. -/
def updateProgress (step : Nat) (progress : Int) (st : State) : State :=
  { st with currentStep := step, progress := progress,
            log := st.log ++ [.progress step progress] }

/-- Embedding of `markStepComplete(step)`: `new Set([...prev, step])` keeps the
insertion order and adds `step` only when it is not yet a member. -/
def markStepComplete (step : Nat) (st : State) : State :=
  let steps := if step ∈ st.completedSteps then st.completedSteps else st.completedSteps ++ [step]
  { st with completedSteps := steps, log := st.log ++ [.completed step steps] }

/-- Ghost update: the call is appended to the observed calls. -/
def recordCall (call : Call) (st : State) : State :=
  { st with calls := st.calls ++ [call] }

/-- Text that a template literal `${value}` gives for a primitive. -/
def templateString : ErrorHandling.Prim → String
  | .undefined => "undefined"
  | .null => "null"
  | .bool b => if b then "true" else "false"
  | .num n => toString n
  | .str s => s

/-- The `catch` block of `initializePyodide`:
`setProcessingError(...${error.message})`.  Reading `error.message` of null or
undefined throws inside the block, before `setProcessingError` is called, and
the state stays as it is. -/
def catchInitialize (error : ErrorHandling.JsValue) (st : State) : State :=
  match ErrorHandling.getMessage error with
  | .error _ => st
  | .ok message =>
    let text := "Failed to initialize Python environment: " ++ templateString message
    { st with processingError := some text }

/-- The `catch` block of `processFiles`, with the same unguarded read of
`error.message`. -/
def catchProcess (error : ErrorHandling.JsValue) (st : State) : State :=
  match ErrorHandling.getMessage error with
  | .error _ => st
  | .ok message =>
    let text := "Processing failed: " ++ templateString message
    { st with processingError := some text }

/-- A `try` step: run the continuation on the value, or the handler on the
thrown value. -/
def tryCall {α : Type} (outcome : Except ErrorHandling.JsValue α)
    (handler : ErrorHandling.JsValue → State) (next : α → State) : State :=
  match outcome with
  | .error error => handler error
  | .ok value => next value

/-- Embedding of `await files.<slot>.text()`.  The read of an empty slot throws
a `TypeError` (message as worded by V8); a rejected read of a browser `File`
rejects with a `DOMException`, an object whose message is the reason. -/
def readSlot : Option File → Except ErrorHandling.JsValue String
  | none => .error (.obj (.str "Cannot read properties of null (reading 'text')"))
  | some file =>
    match file.text with
    | .ok content => .ok content
    | .failed reason => .error (.obj (.str reason))

/-- Media type given to the `Blob`. -/
def spreadsheetType : String :=
  "application/vnd.openxmlformats-officedocument.spreadsheetml.sheet"

/-- Embedding of `processFiles`. -/
def processFiles (env : External) (files : UploadForm.Files) (st : State) : State :=
  let st := updateProgress 2 10 st
  let st := recordCall (.read .signed) st
  tryCall (readSlot files.signed) (fun m => catchProcess m st) fun signedContent =>
  let st := updateProgress 2 30 st
  let st := recordCall (.read .loans) st
  tryCall (readSlot files.loans) (fun m => catchProcess m st) fun loansContent =>
  let st := updateProgress 2 50 st
  let st := recordCall (.read .universal) st
  tryCall (readSlot files.universal) (fun m => catchProcess m st) fun universalContent =>
  let st := updateProgress 2 70 st
  let st := markStepComplete 2 st
  let st := updateProgress 3 0 st
  tryCall env.setSigned (fun m => catchProcess m st) fun _ =>
  tryCall env.setLoans (fun m => catchProcess m st) fun _ =>
  tryCall env.setUniversal (fun m => catchProcess m st) fun _ =>
  let st := updateProgress 3 20 st
  let st := recordCall (.engine signedContent loansContent universalContent) st
  tryCall (env.runMain signedContent loansContent universalContent)
    (fun m => catchProcess m st) fun result =>
  let st := updateProgress 3 90 st
  match result with
  | .unconvertible reason => catchProcess (.obj (.str reason)) st
  | .bytes b =>
    let st := { st with excelBlob := some { bytes := b, type := spreadsheetType } }
    let st := markStepComplete 3 st
    let st := updateProgress 4 100 st
    { st with showEmailInput := true }

/-- Embedding of `initializePyodide`; its last statement starts `processFiles`,
whose failures are handled by `processFiles` itself. -/
def initializePyodide (env : External) (files : UploadForm.Files) (st : State) : State :=
  let st := updateProgress 1 10 st
  tryCall env.loadPyodide (fun m => catchInitialize m st) fun _ =>
  let st := updateProgress 1 30 st
  tryCall env.loadPackages (fun m => catchInitialize m st) fun _ =>
  let st := updateProgress 1 60 st
  tryCall env.loadMicropip (fun m => catchInitialize m st) fun _ =>
  tryCall env.pyimportMicropip (fun m => catchInitialize m st) fun _ =>
  tryCall env.installHtml5lib (fun m => catchInitialize m st) fun _ =>
  let st := updateProgress 1 90 st
  tryCall env.fetchScript (fun m => catchInitialize m st) fun _ =>
  tryCall env.responseText (fun m => catchInitialize m st) fun _ =>
  tryCall env.runScript (fun m => catchInitialize m st) fun _ =>
  let st := { st with pyodide := true }
  let st := markStepComplete 1 st
  let st := updateProgress 2 0 st
  processFiles env files st

/-- One run of the orchestrator from the initial component state. -/
def run (env : External) (files : UploadForm.Files) : State :=
  initializePyodide env files State.init

/-- External world in which every call succeeds and the engine returns `result`. -/
def External.allOk (result : List Nat) : External :=
  { loadPyodide := .ok (), loadPackages := .ok (), loadMicropip := .ok (),
    pyimportMicropip := .ok (), installHtml5lib := .ok (), fetchScript := .ok (),
    responseText := .ok (), runScript := .ok (), setSigned := .ok (), setLoans := .ok (),
    setUniversal := .ok (), runMain := fun _ _ _ => .ok (.bytes result) }

/-- External world in which every call succeeds except the engine call, which
throws an error object with the given message. -/
def External.engineThrows (message : String) : External :=
  { loadPyodide := .ok (), loadPackages := .ok (), loadMicropip := .ok (),
    pyimportMicropip := .ok (), installHtml5lib := .ok (), fetchScript := .ok (),
    responseText := .ok (), runScript := .ok (), setSigned := .ok (), setLoans := .ok (),
    setUniversal := .ok (), runMain := fun _ _ _ => .error (.obj (.str message)) }

/-- External world in which the first call, `window.loadPyodide`, rejects with
the given value. -/
def External.bootRejects (error : ErrorHandling.JsValue) : External :=
  { loadPyodide := .error error, loadPackages := .ok (), loadMicropip := .ok (),
    pyimportMicropip := .ok (), installHtml5lib := .ok (), fetchScript := .ok (),
    responseText := .ok (), runScript := .ok (), setSigned := .ok (), setLoans := .ok (),
    setUniversal := .ok (), runMain := fun _ _ _ => .ok (.bytes []) }

/-- Three readable files, used to evaluate runs. -/
def sampleFiles : UploadForm.Files :=
  { signed := some (File.mk "signed.html" 6000 (.ok "<table>signed</table>")),
    loans := some (File.mk "loans.html" 6000 (.ok "<table>loans</table>")),
    universal := some (File.mk "universal.html" 6000 (.ok "<table>universal</table>")) }

/-- The progress reports among the observed calls, as pairs of stage and percent. -/
def reports (log : List Event) : List (Nat × Int) :=
  log.filterMap fun e =>
    match e with
    | .progress step percent => some (step, percent)
    | .completed _ _ => none

/-- Relation between a progress report (or the initial state) and the next
report: the stage does not decrease, the percent does not decrease within a
stage, and a report that enters another stage has percent 0, or 100 when the
stage is the terminal stage 4. -/
def ReportStep (a b : Nat × Int) : Prop :=
  a.1 ≤ b.1 ∧ (a.1 = b.1 → a.2 ≤ b.2) ∧ (a.1 ≠ b.1 → if b.1 = 4 then b.2 = 100 else b.2 = 0)

instance : DecidableRel ReportStep := fun a b =>
  inferInstanceAs (Decidable (a.1 ≤ b.1 ∧ (a.1 = b.1 → a.2 ≤ b.2)
    ∧ (a.1 ≠ b.1 → if b.1 = 4 then b.2 = 100 else b.2 = 0)))

/-- What `downloadExcel` hands to the browser: the blob behind the object URL
and the file name of the link. -/
structure Download where
  blob : Blob
  filename : String
  deriving DecidableEq, Repr

/-- Embedding of `downloadExcel`: nothing when `excelBlob` is null, else a click
on a link to the blob with the fixed file name. -/
def downloadExcel (st : State) : Option Download :=
  match st.excelBlob with
  | none => none
  | some blob => some { blob := blob, filename := "FM24_Moneyball_Analysis.xlsx" }

/-- Condition under which the download section is rendered:
`showEmailInput && excelBlob`. -/
def downloadSectionShown (st : State) : Bool :=
  st.showEmailInput && st.excelBlob.isSome

/-- The call threw. -/
def failed {α : Type} : Except ErrorHandling.JsValue α → Bool
  | .error _ => true
  | .ok _ => false

/-- The value the call threw, if it threw. -/
def thrownValue {α : Type} : Except ErrorHandling.JsValue α → Option ErrorHandling.JsValue
  | .error error => some error
  | .ok _ => none

/-- One of the external calls of stage 1 fails: runtime boot, package loads,
script fetch and load. -/
def environmentFails (env : External) : Bool :=
  failed env.loadPyodide || failed env.loadPackages || failed env.loadMicropip
    || failed env.pyimportMicropip || failed env.installHtml5lib || failed env.fetchScript
    || failed env.responseText || failed env.runScript

/-- One of the three file reads of stage 2 fails. -/
def ingestFails (files : UploadForm.Files) : Bool :=
  failed (readSlot files.signed) || failed (readSlot files.loans)
    || failed (readSlot files.universal)

/-- Outcome of the engine call on the texts of the three slots, when all three
reads succeed. -/
def engineOutcome (env : External) (files : UploadForm.Files) :
    Option (Except ErrorHandling.JsValue EngineResult) :=
  match readSlot files.signed, readSlot files.loans, readSlot files.universal with
  | .ok signedContent, .ok loansContent, .ok universalContent =>
    some (env.runMain signedContent loansContent universalContent)
  | _, _, _ => none

/-- One of the external calls of stage 3 fails: storing the texts in the
globals, the engine call, or the conversion of its result. -/
def transformFails (env : External) (files : UploadForm.Files) : Bool :=
  failed env.setSigned || failed env.setLoans || failed env.setUniversal
    || match engineOutcome env files with
       | some (.error _) => true
       | some (.ok (.unconvertible _)) => true
       | _ => false

/-- Stage of the first external call that fails, in source order, as the
specification counts the stages; `none` when no call fails. -/
def failureStage (env : External) (files : UploadForm.Files) : Option Nat :=
  if environmentFails env then some 1
  else if ingestFails files then some 2
  else if transformFails env files then some 3
  else none

/-- Number of file reads that succeed before the first one that fails. -/
def readsCompleted (files : UploadForm.Files) : Nat :=
  match readSlot files.signed with
  | .error _ => 0
  | .ok _ =>
    match readSlot files.loans with
    | .error _ => 1
    | .ok _ =>
      match readSlot files.universal with
      | .error _ => 2
      | .ok _ => 3

/-- Progress reports of the Ingest stage among the observed calls. -/
def ingestReports (st : State) : List (Nat × Int) :=
  (reports st.log).filter (fun r => r.1 = 2)

/-- Value thrown by the first external call that fails, in source order (for
a result that does not convert, the `TypeError` of the conversion); `none` when
no call fails. -/
def failureValue (env : External) (files : UploadForm.Files) : Option ErrorHandling.JsValue :=
  [ thrownValue env.loadPyodide, thrownValue env.loadPackages, thrownValue env.loadMicropip,
    thrownValue env.pyimportMicropip, thrownValue env.installHtml5lib,
    thrownValue env.fetchScript, thrownValue env.responseText, thrownValue env.runScript,
    thrownValue (readSlot files.signed), thrownValue (readSlot files.loans),
    thrownValue (readSlot files.universal),
    thrownValue env.setSigned, thrownValue env.setLoans, thrownValue env.setUniversal,
    match engineOutcome env files with
    | some (.error error) => some error
    | some (.ok (.unconvertible reason)) => some (.obj (.str reason))
    | _ => none ].findSome? id

/-- The value is null or undefined. -/
def nullish : ErrorHandling.JsValue → Bool
  | .prim .null => true
  | .prim .undefined => true
  | _ => false

/-- Full width of the progress bar, `width: ${progress}%`. -/
def progressScale : Int := 100

/-- Observed calls of a run in which nothing fails. -/
def successLog : List Event :=
  [.progress 1 10, .progress 1 30, .progress 1 60, .progress 1 90, .completed 1 [1],
   .progress 2 0, .progress 2 10, .progress 2 30, .progress 2 50, .progress 2 70,
   .completed 2 [1, 2], .progress 3 0, .progress 3 20, .progress 3 90,
   .completed 3 [1, 2, 3], .progress 4 100]

end ProcessingPage

/-! ## Facts about `includes` -/

/-- The left-to-right search finds `t` exactly when `t` is a contiguous part of `s`. -/
theorem includesChars_iff (s t : List Char) : includesChars s t = true ↔ t <:+: s := by
  induction s with
  | nil =>
    cases t <;> simp [includesChars, List.isPrefixOf]
  | cons c s ih =>
    simp only [includesChars, Bool.or_eq_true, ih, List.isPrefixOf_iff_prefix,
      List.infix_cons_iff]

/-- Every string includes what it starts with. -/
theorem includes_append_left (a b : String) : includes (a ++ b) a = true := by
  unfold includes
  rw [includesChars_iff, String.data_append]
  exact List.infix_append' [] a.data b.data

/-- Inclusion is transitive. -/
theorem includes_trans {a b c : String} (hab : includes a b = true) (hbc : includes b c = true) :
    includes a c = true := by
  unfold includes at *
  rw [includesChars_iff] at *
  exact hbc.trans hab

/-- ASCII lower-casing keeps inclusions. -/
theorem includes_asciiLowerCase {m w : String} (h : includes m w = true) :
    includes (asciiLowerCase m) (asciiLowerCase w) = true := by
  unfold includes asciiLowerCase at *
  rw [includesChars_iff] at *
  obtain ⟨a, b, hab⟩ := h
  refine ⟨a.map Char.toLower, b.map Char.toLower, ?_⟩
  simp only [← hab, List.map_append]

/-- The empty string includes no non-empty keyword. -/
theorem includes_empty (kw : String) (hkw : kw ≠ "") : includes "" kw = false := by
  have hne : kw.data ≠ [] := fun hd => hkw (String.ext hd)
  cases hk : kw.data with
  | nil => exact absurd hk hne
  | cons c cs => simp [includes, includesChars, hk, List.isPrefixOf]

/-! ## File validation (`utils/errorHandling.js`) -/

namespace ErrorHandling

/-- The three rules of `validateFile`, each contributing at most one entry. -/
theorem validateFile_all_rules (toLowerCase : String → String) (file : File) :
    validateFile toLowerCase (some file)
      = (if endsWith (toLowerCase file.name) ".html" = true then [] else [formatViolation])
        ++ (if 10 * 1024 * 1024 < file.size then [tooLargeViolation file.size] else [])
        ++ (if file.size < 1000 then [tooSmallViolation] else []) := by
  have hmax : maxSize = 10 * 1024 * 1024 := rfl
  simp only [validateFile, hmax]
  by_cases h1 : endsWith (toLowerCase file.name) ".html" = true <;>
    by_cases h2 : 10 * 1024 * 1024 < file.size <;>
    by_cases h3 : file.size < 1000 <;>
    simp [h1, h2, h3]

/-- C1: for every non-null file whose size exceeds 10 MiB, `validateFile`
returns a list that contains the size-exceeds-limit violation. -/
theorem validateFile_reports_too_large (toLowerCase : String → String) (file : File)
    (h : 10 * 1024 * 1024 < file.size) :
    tooLargeViolation file.size ∈ validateFile toLowerCase (some file) := by
  have hbig : file.size > maxSize := h
  have hsmall : ¬ file.size < 1000 := by omega
  simp only [validateFile, hbig, hsmall, if_true, if_false]
  split <;> simp

/-- Witness of C1: a file of 10 MiB + 1 bytes is reported with its size
printed as `10.00MB`. -/
theorem validateFile_reports_too_large_witness :
    10 * 1024 * 1024 < (File.mk "squad.html" 10485761 (.ok "")).size ∧
    "File size (10.00MB) exceeds the 10MB limit" ∈
      validateFile asciiLowerCase (some (File.mk "squad.html" 10485761 (.ok ""))) :=
  ⟨by decide,
   validateFile_reports_too_large asciiLowerCase (File.mk "squad.html" 10485761 (.ok ""))
     (by decide)⟩

/-- C2: for every file with `1000 ≤ size ≤ 10 * 1024 * 1024` whose lower-cased
name ends with `.html`, `validateFile` returns the empty list. -/
theorem validateFile_accepts (toLowerCase : String → String) (file : File)
    (hmin : 1000 ≤ file.size) (hmax : file.size ≤ 10 * 1024 * 1024)
    (hext : endsWith (toLowerCase file.name) ".html" = true) :
    validateFile toLowerCase (some file) = [] := by
  have hbig : ¬ file.size > maxSize := by
    have : maxSize = 10 * 1024 * 1024 := rfl
    omega
  have hsmall : ¬ file.size < 1000 := by omega
  simp [validateFile, hext, hbig, hsmall]

/-- Witness of C2: both bounds are accepted, here the upper one with an
upper-case extension. -/
theorem validateFile_accepts_witness :
    validateFile asciiLowerCase (some (File.mk "Squad.HTML" (10 * 1024 * 1024) (.ok ""))) = [] :=
  validateFile_accepts asciiLowerCase (File.mk "Squad.HTML" (10 * 1024 * 1024) (.ok ""))
    (by decide) (by decide) (by decide)

/-- C3: for every non-null file the three rules are all evaluated, and the
result is the format violation (if the lower-cased name does not end with
`.html`), then the too-large violation (if the size exceeds 10 MiB), then the
too-small violation (if the size is below 1000); so a 50-byte file with a
mismatched extension yields exactly the format violation followed by the
too-small violation. -/
theorem validateFile_all_rules_in_order (toLowerCase : String → String) (file : File) :
    validateFile toLowerCase (some file)
      = (if endsWith (toLowerCase file.name) ".html" = true then [] else [formatViolation])
        ++ (if 10 * 1024 * 1024 < file.size then [tooLargeViolation file.size] else [])
        ++ (if file.size < 1000 then [tooSmallViolation] else [])
    ∧ (file.size = 50 → endsWith (toLowerCase file.name) ".html" = false →
        validateFile toLowerCase (some file) = [formatViolation, tooSmallViolation]) := by
  have hmax : maxSize = 10 * 1024 * 1024 := rfl
  refine ⟨?_, ?_⟩
  · simp only [validateFile, hmax]
    by_cases h1 : endsWith (toLowerCase file.name) ".html" = true <;>
      by_cases h2 : 10 * 1024 * 1024 < file.size <;>
      by_cases h3 : file.size < 1000 <;>
      simp [h1, h2, h3]
  · intro h50 hext
    have h2 : ¬ file.size > 10 * 1024 * 1024 := by omega
    have h3 : file.size < 1000 := by omega
    simp [validateFile, hmax, hext, h2, h3]

/-- Witness of C3: a 50-byte `notes.txt` gets both violations in one call. -/
theorem validateFile_all_rules_in_order_witness :
    validateFile asciiLowerCase (some (File.mk "notes.txt" 50 (.ok "")))
      = ["File must be an HTML file (.html)",
         "File appears to be empty or too small to contain FM24 data"] :=
  (validateFile_all_rules_in_order asciiLowerCase (File.mk "notes.txt" 50 (.ok ""))).2
    (by decide) (by decide)

/-! ## Error classification -/

/-- The record built for an error with a string message: its kind is the one
the priority rules give. -/
theorem classified_record_kind (toLowerCase : String → String) (now m : String) :
    ∃ r, getUserFriendlyError toLowerCase now (.obj (.str m)) = .ok r
      ∧ r.type = classifyByPriority (toLowerCase m) := by
  simp only [getUserFriendlyError, lowerMessage, optMessage, getMessage, classifyByPriority,
    classificationRules, List.find?, List.any, Bool.or_false, Bool.or_assoc]
  generalize (includes (toLowerCase m) "network" || includes (toLowerCase m) "fetch") = g1
  generalize (includes (toLowerCase m) "pyodide" || includes (toLowerCase m) "python") = g2
  generalize (includes (toLowerCase m) "file" || (includes (toLowerCase m) "html"
    || includes (toLowerCase m) "parse")) = g3
  generalize (includes (toLowerCase m) "webassembly" || includes (toLowerCase m) "wasm") = g4
  generalize (includes (toLowerCase m) "processing" || includes (toLowerCase m) "analysis") = g5
  cases g1 <;> cases g2 <;> cases g3 <;> cases g4 <;> cases g5 <;> simp [createError]

/-- The record built for an error with a string message: its type is one of
the six values and its message is a non-empty string. -/
theorem classified_record_wellformed (toLowerCase : String → String)
    (now m : String) :
    ∃ r, getUserFriendlyError toLowerCase now (.obj (.str m)) = .ok r
      ∧ r.type ∈ ErrorTypes.values
      ∧ ∃ text, r.message = .str text ∧ text ≠ "" := by
  simp only [getUserFriendlyError, lowerMessage, optMessage, getMessage]
  split_ifs
  · exact ⟨_, rfl, by simp [createError, ErrorTypes.values], _, rfl, by decide⟩
  · exact ⟨_, rfl, by simp [createError, ErrorTypes.values], _, rfl, by decide⟩
  · exact ⟨_, rfl, by simp [createError, ErrorTypes.values], _, rfl, by decide⟩
  · exact ⟨_, rfl, by simp [createError, ErrorTypes.values], _, rfl, by decide⟩
  · exact ⟨_, rfl, by simp [createError, ErrorTypes.values], _, rfl, by decide⟩
  · by_cases hm : m = ""
    · subst hm
      exact ⟨_, rfl, by simp [createError, ErrorTypes.values], "Unknown error occurred",
        by simp [createError, orElse, truthy], by decide⟩
    · exact ⟨_, rfl, by simp [createError, ErrorTypes.values], m,
        by simp [createError, orElse, truthy, hm], hm⟩

/-- C4: for every error with a string message the kind is that of the first
matching rule over the lower-cased message, in the priority order network or
fetch, pyodide or python, file or html or parse, webassembly or wasm,
processing or analysis, else unknown; so a message whose lower-casing contains
both `network` and `processing` is a `NETWORK_ERROR`, and under the ASCII case
mapping so is every message that contains a spelling of `network` in any
letter case. -/
theorem getUserFriendlyError_first_match (toLowerCase : String → String) (now m : String) :
    (∃ r, getUserFriendlyError toLowerCase now (.obj (.str m)) = .ok r
        ∧ r.type = classifyByPriority (toLowerCase m))
    ∧ (includes (toLowerCase m) "network" = true → includes (toLowerCase m) "processing" = true →
        ∃ r, getUserFriendlyError toLowerCase now (.obj (.str m)) = .ok r
          ∧ r.type = ErrorTypes.NETWORK_ERROR)
    ∧ (∀ w : String, includes m w = true → asciiLowerCase w = "network" →
        ∃ r, getUserFriendlyError asciiLowerCase now (.obj (.str m)) = .ok r
          ∧ r.type = ErrorTypes.NETWORK_ERROR) := by
  refine ⟨?_, ?_, ?_⟩
  · simp only [getUserFriendlyError, lowerMessage, optMessage, getMessage, classifyByPriority,
      classificationRules, List.find?, List.any, Bool.or_false, Bool.or_assoc]
    generalize (includes (toLowerCase m) "network" || includes (toLowerCase m) "fetch") = g1
    generalize (includes (toLowerCase m) "pyodide" || includes (toLowerCase m) "python") = g2
    generalize (includes (toLowerCase m) "file" || (includes (toLowerCase m) "html"
      || includes (toLowerCase m) "parse")) = g3
    generalize (includes (toLowerCase m) "webassembly" || includes (toLowerCase m) "wasm") = g4
    generalize (includes (toLowerCase m) "processing" || includes (toLowerCase m) "analysis") = g5
    cases g1 <;> cases g2 <;> cases g3 <;> cases g4 <;> cases g5 <;> simp [createError]
  · intro hn _
    simp [getUserFriendlyError, lowerMessage, optMessage, hn, createError]
  · intro w hw hlow
    have hn : includes (asciiLowerCase m) "network" = true := by
      have := includes_asciiLowerCase hw
      rwa [hlow] at this
    simp [getUserFriendlyError, lowerMessage, optMessage, hn, createError]

/-- Witness of C4: a message with `NetWork` and `PROCESSING` is a `NETWORK_ERROR`. -/
theorem getUserFriendlyError_first_match_witness :
    ∃ r, getUserFriendlyError asciiLowerCase "2024-05-01T10:00:00.000Z"
        (.obj (.str "NetWork lost while PROCESSING")) = .ok r
      ∧ r.type = "NETWORK_ERROR" :=
  (getUserFriendlyError_first_match asciiLowerCase "2024-05-01T10:00:00.000Z"
    "NetWork lost while PROCESSING").2.2 "NetWork" (by decide) (by decide)

/-- Counterexample to C5: an engine error whose message contains `processing`
and also `parse` is classified `FILE_VALIDATION_ERROR`, not `PROCESSING_ERROR`. -/
theorem processing_token_alone_not_decisive :
    includes "processing failed: could not parse table" "processing" = true ∧
    ∃ r, getUserFriendlyError asciiLowerCase "2024-05-01T10:00:00.000Z"
        (.obj (.str "processing failed: could not parse table")) = .ok r
      ∧ r.type = "FILE_VALIDATION_ERROR" ∧ r.type ≠ ErrorTypes.PROCESSING_ERROR :=
  ⟨by decide, _, rfl, by decide, by decide⟩

/-- C5 as amended: for every engine error whose lower-cased message contains
`processing` and none of the higher-priority keywords (network, fetch, pyodide,
python, file, html, parse, webassembly, wasm), the record built by
`getUserFriendlyError` has kind `PROCESSING_ERROR`. -/
theorem getUserFriendlyError_processing (toLowerCase : String → String) (now m : String)
    (hp : includes (toLowerCase m) "processing" = true)
    (hnone : ∀ kw ∈ ["network", "fetch", "pyodide", "python", "file", "html", "parse",
      "webassembly", "wasm"], includes (toLowerCase m) kw = false) :
    ∃ r, getUserFriendlyError toLowerCase now (.obj (.str m)) = .ok r
      ∧ r.type = ErrorTypes.PROCESSING_ERROR := by
  simp only [List.mem_cons, List.mem_singleton, List.not_mem_nil, or_false, forall_eq_or_imp,
    forall_eq] at hnone
  obtain ⟨h1, h2, h3, h4, h5, h6, h7, h8, h9⟩ := hnone
  simp [getUserFriendlyError, lowerMessage, optMessage, hp, h1, h2, h3, h4, h5, h6, h7, h8, h9,
    createError]

/-- Witness of C5 as amended: `Processing step crashed` is a `PROCESSING_ERROR`. -/
theorem getUserFriendlyError_processing_witness :
    ∃ r, getUserFriendlyError asciiLowerCase "2024-05-01T10:00:00.000Z"
        (.obj (.str "Processing step crashed")) = .ok r
      ∧ r.type = "PROCESSING_ERROR" :=
  getUserFriendlyError_processing asciiLowerCase "2024-05-01T10:00:00.000Z"
    "Processing step crashed" (by decide) (by decide)

/-- C6: for every error object whose message is a string (possibly empty) or
absent, `getUserFriendlyError` returns a record whose type is one of the six
`ErrorTypes` values and whose message is a non-empty string. -/
theorem getUserFriendlyError_closed_taxonomy (toLowerCase : String → String) (now : String)
    (message : Prim) (h : message = .undefined ∨ ∃ s, message = .str s) :
    ∃ r, getUserFriendlyError toLowerCase now (.obj message) = .ok r
      ∧ r.type ∈ ErrorTypes.values
      ∧ ∃ text, r.message = .str text ∧ text ≠ "" := by
  rcases h with h | ⟨m, h⟩
  · subst h
    exact ⟨_, rfl, by simp [createError, ErrorTypes.values], "Unknown error occurred",
      by simp [createError, orElse, truthy], by decide⟩
  · subst h
    simp only [getUserFriendlyError, lowerMessage, optMessage, getMessage]
    split_ifs
    · exact ⟨_, rfl, by simp [createError, ErrorTypes.values], _, rfl, by decide⟩
    · exact ⟨_, rfl, by simp [createError, ErrorTypes.values], _, rfl, by decide⟩
    · exact ⟨_, rfl, by simp [createError, ErrorTypes.values], _, rfl, by decide⟩
    · exact ⟨_, rfl, by simp [createError, ErrorTypes.values], _, rfl, by decide⟩
    · exact ⟨_, rfl, by simp [createError, ErrorTypes.values], _, rfl, by decide⟩
    · by_cases hm : m = ""
      · subst hm
        exact ⟨_, rfl, by simp [createError, ErrorTypes.values], "Unknown error occurred",
          by simp [createError, orElse, truthy], by decide⟩
      · exact ⟨_, rfl, by simp [createError, ErrorTypes.values], m,
          by simp [createError, orElse, truthy, hm], hm⟩

/-- Witness of C6: an error object with the empty message. -/
theorem getUserFriendlyError_closed_taxonomy_witness :
    ∃ r, getUserFriendlyError asciiLowerCase "2024-05-01T10:00:00.000Z" (.obj (.str "")) = .ok r
      ∧ r.type ∈ ErrorTypes.values
      ∧ ∃ text, r.message = .str text ∧ text ≠ "" :=
  getUserFriendlyError_closed_taxonomy asciiLowerCase "2024-05-01T10:00:00.000Z" (.str "")
    (Or.inr ⟨"", rfl⟩)

/-- C7, evaluated on the code: for null and for undefined, whatever the case
mapping and the clock, `getUserFriendlyError` throws a `TypeError` (line 56
reads `error.message` without the optional chain of line 34) instead of
returning a record; so does an object whose message is a number or a boolean
(line 34 calls a `toLowerCase` that is not there). -/
theorem getUserFriendlyError_throws_on_nullish (toLowerCase : String → String) (now : String) :
    getUserFriendlyError toLowerCase now (.prim .null) = .error .typeError
    ∧ getUserFriendlyError toLowerCase now (.prim .undefined) = .error .typeError
    ∧ (∀ n, getUserFriendlyError toLowerCase now (.obj (.num n)) = .error .typeError)
    ∧ (∀ b, getUserFriendlyError toLowerCase now (.obj (.bool b)) = .error .typeError) := by
  refine ⟨?_, ?_, fun _ => rfl, fun _ => rfl⟩
  · simp [getUserFriendlyError, lowerMessage, optMessage, getMessage, includes_empty]
  · simp [getUserFriendlyError, lowerMessage, optMessage, getMessage, includes_empty]

/-- Counterexample to C8: for the transformation failure with raw message
`processing crashed at row 7` the record's details field is null, not the raw
message. -/
theorem details_do_not_keep_raw_message :
    ∃ r, getUserFriendlyError asciiLowerCase "2024-05-01T10:00:00.000Z"
        (.obj (.str "processing crashed at row 7")) = .ok r
      ∧ r.type = "PROCESSING_ERROR" ∧ r.details = .null
      ∧ r.details ≠ .str "processing crashed at row 7"
      ∧ r.message = .str "Data processing failed" :=
  ⟨_, rfl, by decide, by decide, by decide, by decide⟩

/-- C8 as amended: for every failure with raw string message `m`,
`getUserFriendlyError` returns a record whose details field is null; a record
of kind `PROCESSING_ERROR` carries the fixed message `Data processing failed`,
and the raw message is kept, in the message field, when the kind is
`UNKNOWN_ERROR` and `m` is not empty. -/
theorem getUserFriendlyError_details_null (toLowerCase : String → String) (now m : String) :
    ∃ r, getUserFriendlyError toLowerCase now (.obj (.str m)) = .ok r
      ∧ r.details = .null
      ∧ (r.type = ErrorTypes.PROCESSING_ERROR → r.message = .str "Data processing failed")
      ∧ (r.type = ErrorTypes.UNKNOWN_ERROR → m ≠ "" → r.message = .str m) := by
  simp only [getUserFriendlyError, lowerMessage, optMessage, getMessage]
  split_ifs <;> refine ⟨_, rfl, rfl, ?_, ?_⟩ <;> intros <;>
    simp_all [createError, orElse, truthy, ErrorTypes.NETWORK_ERROR, ErrorTypes.PYODIDE_ERROR,
      ErrorTypes.FILE_VALIDATION_ERROR, ErrorTypes.BROWSER_COMPATIBILITY_ERROR,
      ErrorTypes.PROCESSING_ERROR, ErrorTypes.UNKNOWN_ERROR]

/-- Witness of C8 as amended: an unclassified failure keeps its raw message in
the message field and has null details. -/
theorem getUserFriendlyError_details_null_witness :
    ∃ r, getUserFriendlyError asciiLowerCase "2024-05-01T10:00:00.000Z"
        (.obj (.str "out of memory")) = .ok r
      ∧ r.details = .null
      ∧ (r.type = ErrorTypes.PROCESSING_ERROR → r.message = .str "Data processing failed")
      ∧ (r.type = ErrorTypes.UNKNOWN_ERROR → "out of memory" ≠ "" →
          r.message = .str "out of memory") :=
  getUserFriendlyError_details_null asciiLowerCase "2024-05-01T10:00:00.000Z" "out of memory"

/-! ## Content validation -/

/-- The four checks of `validateFileContent` on a readable file, each
contributing at most one entry. -/
theorem validateFileContent_ok (name : String) (size : Nat) (content : String) :
    validateFileContent (File.mk name size (.ok content))
      = (if includes content "<html" = false ∧ includes content "<table" = false
          then [htmlExportViolation] else [])
        ++ (if (requiredElements.filter (fun e => !includes content e)).length > 0
          then [tableStructureViolation] else [])
        ++ (if jsLength content < 5000 then [contentTooSmallViolation] else [])
        ++ (if (playerDataIndicators.filter (fun t => includes content t)).length < 2
          then [playerDataViolation] else []) := by
  simp only [validateFileContent]
  split_ifs <;> simp_all

/-- Whatever checks fail, the four messages are pairwise different, so each
occurs at most once and the four flags can be read back from the result. -/
theorem four_messages (p1 p2 p3 p4 : Prop) [Decidable p1] [Decidable p2] [Decidable p3]
    [Decidable p4] :
    let result := (if p1 then [htmlExportViolation] else [])
      ++ (if p2 then [tableStructureViolation] else [])
      ++ (if p3 then [contentTooSmallViolation] else [])
      ++ (if p4 then [playerDataViolation] else [])
    result.Nodup ∧ result.length ≤ 4
      ∧ (htmlExportViolation ∈ result ↔ p1) ∧ (tableStructureViolation ∈ result ↔ p2)
      ∧ (contentTooSmallViolation ∈ result ↔ p3) ∧ (playerDataViolation ∈ result ↔ p4) := by
  by_cases h1 : p1 <;> by_cases h2 : p2 <;> by_cases h3 : p3 <;> by_cases h4 : p4 <;>
    simp [h1, h2, h3, h4, htmlExportViolation, tableStructureViolation,
      contentTooSmallViolation, playerDataViolation]

/-- The filter of `playerDataIndicators` finds as many tokens as occur. -/
theorem foundIndicators_length (content : String) :
    (playerDataIndicators.filter (fun t => includes content t)).length = tokensFound content := by
  simp only [playerDataIndicators, tokensFound, List.filter]
  cases includes content "Name" <;> cases includes content "Position" <;>
    cases includes content "Age" <;> cases includes content "Club" <;> rfl

/-- Some required element is missing exactly when not all three occur. -/
theorem missingElements_length (content : String) :
    (requiredElements.filter (fun e => !includes content e)).length > 0
      ↔ ¬ (includes content "<table" = true ∧ includes content "<tbody" = true
            ∧ includes content "<tr" = true) := by
  simp only [requiredElements, List.filter]
  cases includes content "<table" <;> cases includes content "<tbody" <;>
    cases includes content "<tr" <;> simp

/-- C15: for every readable content, `validateFileContent` emits one violation
per failed category: no message occurs twice, the result has at most four
entries, the table-structure message occurs exactly once whenever one, two or
all three of `<table`, `<tbody`, `<tr` are missing, and the player-data message
occurs exactly once whenever fewer than two field tokens are found. -/
theorem validateFileContent_one_per_category (name : String) (size : Nat) (content : String) :
    (∀ v, (validateFileContent (File.mk name size (.ok content))).count v ≤ 1)
    ∧ (validateFileContent (File.mk name size (.ok content))).length ≤ 4
    ∧ ((∃ e ∈ ["<table", "<tbody", "<tr"], includes content e = false) →
        (validateFileContent (File.mk name size (.ok content))).count tableStructureViolation = 1)
    ∧ (tokensFound content < 2 →
        (validateFileContent (File.mk name size (.ok content))).count playerDataViolation = 1) := by
  have h := four_messages (includes content "<html" = false ∧ includes content "<table" = false)
    ((requiredElements.filter (fun e => !includes content e)).length > 0)
    (jsLength content < 5000)
    ((playerDataIndicators.filter (fun t => includes content t)).length < 2)
  simp only [← validateFileContent_ok name size content] at h
  obtain ⟨hnodup, hlen, -, h2, -, h4⟩ := h
  refine ⟨fun v => List.nodup_iff_count_le_one.mp hnodup v, hlen, ?_, ?_⟩
  · intro hmiss
    apply List.count_eq_one_of_mem hnodup
    rw [h2, missingElements_length]
    rintro ⟨ha, hb, hc⟩
    obtain ⟨e, he, hfalse⟩ := hmiss
    simp only [List.mem_cons, List.mem_singleton, List.not_mem_nil, or_false] at he
    rcases he with rfl | rfl | rfl <;> simp_all
  · intro hfew
    apply List.count_eq_one_of_mem hnodup
    rw [h4, foundIndicators_length]
    exact hfew

/-- Witness of C15: a content with none of the three markers and no field
token gets the table-structure message once. -/
theorem validateFileContent_one_per_category_witness :
    (validateFileContent (File.mk "export.html" 6000 (.ok "plain text"))).count
        "File does not contain expected FM24 table structure" = 1 :=
  (validateFileContent_one_per_category "export.html" 6000 "plain text").2.2.1
    ⟨"<tbody", by decide, by decide⟩

/-- Counterexample to C16: a content with `<table` and `<tr` but without
`<tbody` gets the table-structure message. -/
theorem table_and_row_without_tbody_rejected :
    includes "<table><tr><td>Name Position</td></tr></table>" "<table" = true
    ∧ includes "<table><tr><td>Name Position</td></tr></table>" "<tr" = true
    ∧ "File does not contain expected FM24 table structure" ∈
        validateFileContent
          (File.mk "export.html" 6000 (.ok "<table><tr><td>Name Position</td></tr></table>")) := by
  refine ⟨by decide, by decide, by decide⟩

/-- C16 as amended: for every content that contains `<table`, `<tbody` and
`<tr`, `validateFileContent` emits no structural violation; a content with
`<table` and `<tr` but without `<tbody` gets the table-structure message and
not the valid-HTML-export one. -/
theorem validateFileContent_structure (name : String) (size : Nat) (content : String)
    (htable : includes content "<table" = true) (hrow : includes content "<tr" = true) :
    (includes content "<tbody" = true →
        htmlExportViolation ∉ validateFileContent (File.mk name size (.ok content))
        ∧ tableStructureViolation ∉ validateFileContent (File.mk name size (.ok content)))
    ∧ (includes content "<tbody" = false →
        htmlExportViolation ∉ validateFileContent (File.mk name size (.ok content))
        ∧ tableStructureViolation ∈ validateFileContent (File.mk name size (.ok content))) := by
  have h := four_messages (includes content "<html" = false ∧ includes content "<table" = false)
    ((requiredElements.filter (fun e => !includes content e)).length > 0)
    (jsLength content < 5000)
    ((playerDataIndicators.filter (fun t => includes content t)).length < 2)
  simp only [← validateFileContent_ok name size content] at h
  obtain ⟨-, -, h1, h2, -, -⟩ := h
  rw [h1, h2, missingElements_length]
  refine ⟨fun hbody => ?_, fun hbody => ?_⟩ <;> simp [htable, hrow, hbody]

/-- Witness of C16 as amended: a content with all three markers has no
structural violation. -/
theorem validateFileContent_structure_witness :
    "File does not appear to be a valid HTML export from FM24" ∉
        validateFileContent (File.mk "export.html" 6000 (.ok "<table><tbody><tr></tr></tbody>"))
    ∧ "File does not contain expected FM24 table structure" ∉
        validateFileContent (File.mk "export.html" 6000 (.ok "<table><tbody><tr></tr></tbody>")) :=
  (validateFileContent_structure "export.html" 6000 "<table><tbody><tr></tr></tbody>"
    (by decide) (by decide)).1 (by decide)

/-- C17: for every readable content, `validateFileContent` emits the
player-data violation iff fewer than two of the four tokens `Name`, `Position`,
`Age`, `Club` occur in the content. -/
theorem validateFileContent_player_data (name : String) (size : Nat) (content : String) :
    playerDataViolation ∈ validateFileContent (File.mk name size (.ok content))
      ↔ tokensFound content < 2 := by
  have h := four_messages (includes content "<html" = false ∧ includes content "<table" = false)
    ((requiredElements.filter (fun e => !includes content e)).length > 0)
    (jsLength content < 5000)
    ((playerDataIndicators.filter (fun t => includes content t)).length < 2)
  simp only [← validateFileContent_ok name size content] at h
  rw [h.2.2.2.2.2, foundIndicators_length]

/-- The result of four optional entries is empty exactly when no entry is there. -/
theorem four_messages_nil (p1 p2 p3 p4 : Prop) [Decidable p1] [Decidable p2] [Decidable p3]
    [Decidable p4] :
    (if p1 then [htmlExportViolation] else [])
        ++ (if p2 then [tableStructureViolation] else [])
        ++ (if p3 then [contentTooSmallViolation] else [])
        ++ (if p4 then [playerDataViolation] else []) = []
      ↔ ¬ p1 ∧ ¬ p2 ∧ ¬ p3 ∧ ¬ p4 := by
  by_cases h1 : p1 <;> by_cases h2 : p2 <;> by_cases h3 : p3 <;> by_cases h4 : p4 <;>
    simp [h1, h2, h3, h4]

/-- C28: for every readable content, `validateFileContent` returns the empty
list iff the content contains all of `<table`, `<tbody` and `<tr`, has length
at least 5000 and contains at least two of the four field tokens; and
whenever the valid-HTML-export violation is emitted, the table-structure
violation is emitted too. -/
theorem validateFileContent_empty_iff (name : String) (size : Nat) (content : String) :
    (validateFileContent (File.mk name size (.ok content)) = []
      ↔ (includes content "<table" = true ∧ includes content "<tbody" = true
          ∧ includes content "<tr" = true)
        ∧ 5000 ≤ jsLength content ∧ 2 ≤ tokensFound content)
    ∧ (htmlExportViolation ∈ validateFileContent (File.mk name size (.ok content)) →
        tableStructureViolation ∈ validateFileContent (File.mk name size (.ok content))) := by
  have h := four_messages (includes content "<html" = false ∧ includes content "<table" = false)
    ((requiredElements.filter (fun e => !includes content e)).length > 0)
    (jsLength content < 5000)
    ((playerDataIndicators.filter (fun t => includes content t)).length < 2)
  simp only [← validateFileContent_ok name size content] at h
  obtain ⟨-, -, h1, h2, -, -⟩ := h
  refine ⟨?_, ?_⟩
  · rw [validateFileContent_ok, four_messages_nil, missingElements_length,
      foundIndicators_length]
    constructor
    · rintro ⟨-, hall, hlen, htok⟩
      exact ⟨not_not.mp hall, by omega, by omega⟩
    · rintro ⟨hall, hlen, htok⟩
      refine ⟨?_, not_not.mpr hall, by omega, by omega⟩
      simp [hall.1]
  · rw [h1, h2, missingElements_length]
    rintro ⟨-, htable⟩ ⟨htable', -, -⟩
    simp [htable] at htable'

/-- Witness of C28: a content without `<table` gets both structural violations. -/
theorem validateFileContent_empty_iff_witness :
    "File does not contain expected FM24 table structure" ∈
      validateFileContent (File.mk "export.html" 6000 (.ok "Name Position Age Club")) :=
  (validateFileContent_empty_iff "export.html" 6000 "Name Position Age Club").2 (by decide)

/-! ## User-facing texts and retries -/

/-- For a record whose type is one of the six `ErrorTypes` values,
`getErrorMessage` returns the text of that type, whatever the message is. -/
theorem getErrorMessage_of_known (record : ErrorRecord) (h : record.type ∈ ErrorTypes.values) :
    getErrorMessage record = errorMessagesAt record.type
    ∧ ∃ text, errorMessagesAt record.type = .str text ∧ text ≠ "" := by
  simp only [ErrorTypes.values, List.mem_cons, List.mem_singleton, List.not_mem_nil,
    or_false] at h
  have hor : ∀ a x d : Prim, truthy a = true → orElse (orElse a x) d = a := by
    intro a x d ha
    simp [orElse, ha]
  rcases h with h | h | h | h | h | h <;> rw [getErrorMessage, h] <;>
    exact ⟨hor _ _ _ (by decide), _, rfl, by decide⟩

/-- C30: for every error `e` with a string message, `getErrorMessage` of the
record that `getUserFriendlyError` builds is the fixed text of the kind that
`e` is classified as, a non-empty string that depends on `e` only through the
kind; the message of the record is not returned.  For every record whose type
is one of the six `ErrorTypes` values `getErrorMessage` returns the text of the
type, so it falls back to the message only for other types. -/
theorem getErrorMessage_of_classified (toLowerCase : String → String) (now m : String) :
    (∃ r, getUserFriendlyError toLowerCase now (.obj (.str m)) = .ok r
        ∧ getErrorMessage r = errorMessagesAt (classifyByPriority (toLowerCase m))
        ∧ ∃ text, getErrorMessage r = .str text ∧ text ≠ "")
    ∧ (∀ record : ErrorRecord, record.type ∈ ErrorTypes.values →
        getErrorMessage record = errorMessagesAt record.type)
    ∧ (∀ record : ErrorRecord, getErrorMessage record ≠ errorMessagesAt record.type →
        record.type ∉ ErrorTypes.values) := by
  refine ⟨?_, fun record h => (getErrorMessage_of_known record h).1,
    fun record hne hmem => hne (getErrorMessage_of_known record hmem).1⟩
  obtain ⟨r, hr, hmem, -⟩ := classified_record_wellformed toLowerCase now m
  obtain ⟨r', hr', hkind⟩ := classified_record_kind toLowerCase now m
  rw [hr] at hr'
  obtain rfl : r = r' := Except.ok.inj hr'
  obtain ⟨hget, text, htext, hne⟩ := getErrorMessage_of_known r hmem
  exact ⟨r, hr, by rw [hget, hkind], text, by rw [hget, htext], hne⟩

/-- Witness of C30: an unclassified failure gets the text of the unknown kind,
not its raw message. -/
theorem getErrorMessage_of_classified_witness :
    ∃ r, getUserFriendlyError asciiLowerCase "2024-05-01T10:00:00.000Z"
        (.obj (.str "out of memory")) = .ok r
      ∧ r.message = .str "out of memory"
      ∧ getErrorMessage r
        = .str "An unexpected error occurred. Please try again or refresh the page." :=
  ⟨_, rfl, by decide,
   (getErrorMessage_of_classified asciiLowerCase "2024-05-01T10:00:00.000Z" "out of memory").2.1
     _ (by decide)⟩

/-- The loop of `retryOperation`, entered at attempt `invoked + 1` after
`invoked` failed invocations and with enough fuel, ends; it has then invoked
the operation between once and `m` times, every invocation before the last
one failed, a returned value is the result of the last invocation, and a
thrown value is the classification of the failure of invocation `m`. -/
theorem retryLoop_ends {α : Type} (toLowerCase : String → String) (now : String)
    (operation : Nat → Except JsValue α) (m : Nat) :
    ∀ (fuel invoked : Nat) (lastError : JsValue), invoked + 1 ≤ m → m ≤ fuel + invoked →
      (∀ k, 1 ≤ k → k ≤ invoked → ∃ e, operation k = .error e) →
      ∃ res, retryLoop toLowerCase now operation (m : Int) fuel (invoked + 1) lastError invoked
          = some res
        ∧ 1 ≤ res.invocations ∧ res.invocations ≤ m
        ∧ (∀ k, 1 ≤ k → k < res.invocations → ∃ e, operation k = .error e)
        ∧ (∀ v, res.outcome = .returned v → operation res.invocations = .ok v)
        ∧ (∀ t, res.outcome = .threw t → res.invocations = m
            ∧ ∃ e, operation m = .error e
              ∧ t = throwClassified (getUserFriendlyError toLowerCase now e)) := by
  intro fuel
  induction fuel with
  | zero =>
    intro invoked lastError h1 h2 _
    omega
  | succ fuel ih =>
    intro invoked lastError h1 h2 hfail
    have hcond : ((invoked + 1 : Nat) : Int) ≤ (m : Int) := by exact_mod_cast h1
    rw [retryLoop, if_pos hcond]
    cases hop : operation (invoked + 1) with
    | ok value =>
      refine ⟨_, rfl, by simp, by simpa using h1, ?_, ?_, ?_⟩
      · intro k hk1 hk2
        exact hfail k hk1 (by simpa [Nat.lt_succ_iff] using hk2)
      · intro v hv
        simp only [RetryOutcome.returned.injEq] at hv
        subst hv
        exact hop
      · intro t ht
        simp at ht
    | error error =>
      by_cases hlast : invoked + 1 = m
      · have hcast : ((invoked + 1 : Nat) : Int) = (m : Int) := by exact_mod_cast hlast
        simp only [if_pos hcast]
        refine ⟨_, rfl, by simp, by simp [hlast], ?_, ?_, ?_⟩
        · intro k hk1 hk2
          exact hfail k hk1 (by simpa [Nat.lt_succ_iff] using hk2)
        · intro v hv
          simp at hv
        · intro t ht
          simp only [RetryOutcome.threw.injEq] at ht
          refine ⟨hlast, error, by rw [← hlast]; exact hop, ht.symm⟩
      · have hcast : ¬ ((invoked + 1 : Nat) : Int) = (m : Int) := by exact_mod_cast hlast
        simp only [if_neg hcast]
        have hfail' : ∀ k, 1 ≤ k → k ≤ invoked + 1 → ∃ e, operation k = .error e := by
          intro k hk1 hk2
          rcases Nat.lt_or_eq_of_le hk2 with hlt | heq
          · exact hfail k hk1 (Nat.lt_succ_iff.mp hlt)
          · exact ⟨error, by rw [heq]; exact hop⟩
        exact ih (invoked + 1) error (by omega) (by omega) hfail'

/-- C25, evaluated on the code: for every operation and every
`maxRetries ≥ 1`, `retryOperation` ends after invoking the operation at most
`maxRetries` times; it returns the result of the first successful attempt, all
attempts before it having failed and none being made after it; and it throws
only after all `maxRetries` attempts have failed.  The value thrown is the
record of `getUserFriendlyError` for the last failure when that call returns
one, and the exception of `getUserFriendlyError` when that call throws: for an
operation that rejects with null or with undefined, `retryOperation` throws a
`TypeError` and no classified record. -/
theorem retryOperation_thrown_value {α : Type} (toLowerCase : String → String) (now : String)
    (operation : Nat → Except JsValue α) (maxRetries : Int) :
    (1 ≤ maxRetries →
      ∃ res, retryOperation toLowerCase now operation maxRetries = some res
        ∧ 1 ≤ res.invocations ∧ (res.invocations : Int) ≤ maxRetries
        ∧ (∀ k, 1 ≤ k → k < res.invocations → ∃ e, operation k = .error e)
        ∧ (∀ v, res.outcome = .returned v → operation res.invocations = .ok v)
        ∧ (∀ t, res.outcome = .threw t → (res.invocations : Int) = maxRetries
            ∧ ∃ e, operation res.invocations = .error e
              ∧ (∀ r, getUserFriendlyError toLowerCase now e = .ok r → t = .record r)
              ∧ (∀ x, getUserFriendlyError toLowerCase now e = .error x → t = .exception x)))
    ∧ retryOperation asciiLowerCase "2024-05-01T10:00:00.000Z"
          (fun _ => (.error (.prim .null) : Except JsValue Nat)) 1
        = some { outcome := .threw (.exception .typeError), invocations := 1 }
    ∧ retryOperation asciiLowerCase "2024-05-01T10:00:00.000Z"
          (fun _ => (.error (.prim .undefined) : Except JsValue Nat)) 3
        = some { outcome := .threw (.exception .typeError), invocations := 3 }
    ∧ retryOperation asciiLowerCase "2024-05-01T10:00:00.000Z"
          (fun _ => (.error (.obj (.str "fetch failed")) : Except JsValue Nat)) 2
        = some { outcome := .threw (.record
                   (createError "2024-05-01T10:00:00.000Z" ErrorTypes.NETWORK_ERROR
                     (.str "Network connection failed") .null)),
                 invocations := 2 } := by
  refine ⟨fun h => ?_, by decide, by decide, by decide⟩
  obtain ⟨m, rfl⟩ : ∃ m : Nat, maxRetries = (m : Int) := ⟨maxRetries.toNat, by omega⟩
  have hm : 1 ≤ m := by exact_mod_cast h
  obtain ⟨res, hres, h1, h2, h3, h4, h5⟩ :=
    retryLoop_ends toLowerCase now operation m (m + 1) 0 (.prim .undefined) hm (by omega)
      (fun k hk1 hk2 => by omega)
  refine ⟨res, ?_, h1, by exact_mod_cast h2, h3, h4, ?_⟩
  · simpa [retryOperation] using hres
  · intro t ht
    obtain ⟨hinv, e, he, hte⟩ := h5 t ht
    refine ⟨by exact_mod_cast hinv, e, by rw [hinv]; exact he, ?_, ?_⟩
    · intro r hr
      rw [hte, hr]
      rfl
    · intro x hx
      rw [hte, hx]
      rfl

/-- Witness of C25: the operation fails twice and succeeds at the third of
three attempts; its result is returned after three invocations. -/
theorem retryOperation_thrown_value_witness :
    retryOperation asciiLowerCase "2024-05-01T10:00:00.000Z"
        (fun k => if k < 3 then .error (.obj (.str "fetch failed")) else .ok (40 + k)) 3
      = some { outcome := .returned 43, invocations := 3 }
    ∧ ∃ res, retryOperation asciiLowerCase "2024-05-01T10:00:00.000Z"
        (fun k => if k < 3 then .error (.obj (.str "fetch failed")) else .ok (40 + k)) 3
          = some res
        ∧ 1 ≤ res.invocations ∧ (res.invocations : Int) ≤ 3 :=
  ⟨by decide,
   ((retryOperation_thrown_value asciiLowerCase "2024-05-01T10:00:00.000Z"
      (fun k => if k < 3 then .error (.obj (.str "fetch failed")) else .ok (40 + k)) 3).1
      (by decide)).imp fun _ hres => ⟨hres.1, hres.2.1, hres.2.2.1⟩⟩

/-- C29: for every operation and every `maxRetries ≤ 0`, `retryOperation` does
not invoke the operation and throws the unset `lastError`, which is undefined. -/
theorem retryOperation_no_attempt {α : Type} (toLowerCase : String → String) (now : String)
    (operation : Nat → Except JsValue α) (maxRetries : Int) (h : maxRetries ≤ 0) :
    retryOperation toLowerCase now operation maxRetries
      = some { outcome := .threw (.value (.prim .undefined)), invocations := 0 } := by
  have hfuel : maxRetries.toNat = 0 := by omega
  have hcond : ¬ ((1 : Nat) : Int) ≤ maxRetries := by omega
  rw [retryOperation, hfuel, retryLoop, if_neg hcond]

/-- Witness of C29: with `maxRetries = 0` an operation that would succeed is
never invoked. -/
theorem retryOperation_no_attempt_witness :
    retryOperation asciiLowerCase "2024-05-01T10:00:00.000Z"
        (fun _ => (.ok 7 : Except JsValue Nat)) 0
      = some { outcome := .threw (.value (.prim .undefined)), invocations := 0 } :=
  retryOperation_no_attempt asciiLowerCase "2024-05-01T10:00:00.000Z" (fun _ => .ok 7) 0
    (by decide)

end ErrorHandling

/-! ## Upload state (`pages/UploadForm.js`) -/

namespace UploadForm

/-- The two branches of `handleFileSelect`, keyed on the validation result. -/
theorem handleFileSelect_eq (toLowerCase : String → String) (type : Role) (file : File)
    (st : State) :
    handleFileSelect toLowerCase type file st
      = if validateFile toLowerCase file = [] then
          { st with
            errors := st.errors.filter (fun e => !includes e file.name)
            files := st.files.set type file }
        else
          { st with
            errors := st.errors.filter (fun e => !includes e file.name)
              ++ validateFile toLowerCase file } := by
  unfold handleFileSelect
  cases h : validateFile toLowerCase file <;> simp

/-- Every violation of the local `validateFile` starts with, hence includes, the file name. -/
theorem validateFile_includes_name (toLowerCase : String → String) (file : File) :
    ∀ v ∈ validateFile toLowerCase file, includes v file.name = true := by
  intro v hv
  simp only [validateFile] at hv
  split_ifs at hv <;> simp at hv
  all_goals
    first
    | (subst hv; exact includes_append_left _ _)
    | (rcases hv with h | h <;> subst h <;> exact includes_append_left _ _)

/-- C9: if the local `validateFile(file)` is non-empty, `handleFileSelect`
leaves all three slots unchanged; if it is empty, the slot of the role becomes
that file and the other two slots are unchanged. -/
theorem handleFileSelect_slots (toLowerCase : String → String) (type : Role) (file : File)
    (st : State) :
    (validateFile toLowerCase file ≠ [] →
      (handleFileSelect toLowerCase type file st).files = st.files)
    ∧ (validateFile toLowerCase file = [] →
      (handleFileSelect toLowerCase type file st).files.get type = some file
      ∧ ∀ other, other ≠ type →
          (handleFileSelect toLowerCase type file st).files.get other = st.files.get other) := by
  rw [handleFileSelect_eq]
  refine ⟨fun h => ?_, fun h => ?_⟩
  · simp [h]
  · simp only [h, if_true]
    refine ⟨?_, ?_⟩
    · cases type <;> rfl
    · intro other hne
      cases type <;> cases other <;> first | rfl | exact absurd rfl hne

/-- Witness of C9: a rejected `notes.txt` leaves the signed slot holding
`old.html`; an accepted `new.html` replaces it and leaves the loans slot alone. -/
theorem handleFileSelect_slots_witness :
    (handleFileSelect asciiLowerCase .signed (File.mk "notes.txt" 2000 (.ok ""))
        { files := { signed := some (File.mk "old.html" 3000 (.ok "")), loans := none,
                     universal := none },
          errors := [], isValidating := false }).files
      = { signed := some (File.mk "old.html" 3000 (.ok "")), loans := none, universal := none }
    ∧ (handleFileSelect asciiLowerCase .signed (File.mk "new.html" 2000 (.ok ""))
        { files := { signed := some (File.mk "old.html" 3000 (.ok "")), loans := none,
                     universal := none },
          errors := [], isValidating := false }).files.get .signed
      = some (File.mk "new.html" 2000 (.ok "")) :=
  ⟨(handleFileSelect_slots asciiLowerCase .signed (File.mk "notes.txt" 2000 (.ok ""))
      { files := { signed := some (File.mk "old.html" 3000 (.ok "")), loans := none,
                   universal := none },
        errors := [], isValidating := false }).1 (by decide),
   ((handleFileSelect_slots asciiLowerCase .signed (File.mk "new.html" 2000 (.ok ""))
      { files := { signed := some (File.mk "old.html" 3000 (.ok "")), loans := none,
                   universal := none },
        errors := [], isValidating := false }).2 (by decide)).1⟩

/-- Errors list after an invalid file and then a valid file are offered to one role. -/
theorem handleFileSelect_twice_errors (toLowerCase : String → String) (type : Role) (f g : File)
    (st : State) (hf : validateFile toLowerCase f ≠ []) (hg : validateFile toLowerCase g = []) :
    (handleFileSelect toLowerCase type g (handleFileSelect toLowerCase type f st)).errors
      = (st.errors.filter (fun e => !includes e f.name) ++ validateFile toLowerCase f).filter
          (fun e => !includes e g.name) := by
  rw [handleFileSelect_eq toLowerCase type g, handleFileSelect_eq toLowerCase type f]
  simp [hf, hg]

/-- Counterexample to C10: after the invalid `roster.txt` and then the valid
`loans.html` are offered to the signed role, the violation produced for
`roster.txt` is still in the errors list; and when an oversized `squad.html`
was offered to the loans role before, offering `notes.txt` and then a valid
`squad.html` to the signed role removes the violation recorded for the loans
role. -/
theorem stale_violation_survives_reassignment :
    validateFile asciiLowerCase (File.mk "roster.txt" 5000 (.ok ""))
        = ["roster.txt: Must be an HTML file"]
    ∧ validateFile asciiLowerCase (File.mk "loans.html" 5000 (.ok "")) = []
    ∧ (handleFileSelect asciiLowerCase .signed (File.mk "loans.html" 5000 (.ok ""))
        (handleFileSelect asciiLowerCase .signed (File.mk "roster.txt" 5000 (.ok ""))
          State.init)).errors = ["roster.txt: Must be an HTML file"]
    ∧ (handleFileSelect asciiLowerCase .loans (File.mk "squad.html" 20000000 (.ok ""))
          State.init).errors = ["squad.html: File size must be under 10MB"]
    ∧ validateFile asciiLowerCase (File.mk "squad.html" 4000 (.ok "")) = []
    ∧ (handleFileSelect asciiLowerCase .signed (File.mk "squad.html" 4000 (.ok ""))
        (handleFileSelect asciiLowerCase .signed (File.mk "notes.txt" 5000 (.ok ""))
          (handleFileSelect asciiLowerCase .loans (File.mk "squad.html" 20000000 (.ok ""))
            State.init))).errors = ["notes.txt: Must be an HTML file"] := by
  refine ⟨by decide, by decide, by decide, by decide, by decide, by decide⟩

/-- C10 as amended: let `f` be invalid and `g` valid, offered to one role in
that order.  If `f` and `g` have the same name, no violation produced for `f`
remains in the errors list; if the name of `g` occurs in no violation of `f`,
every violation of `f` is still in the list; and the entries that contain
neither name, for whichever role they were recorded, are the same as before,
in the same order. -/
theorem handleFileSelect_reassign (toLowerCase : String → String) (type : Role) (f g : File)
    (st : State) (hf : validateFile toLowerCase f ≠ []) (hg : validateFile toLowerCase g = []) :
    (g.name = f.name → ∀ v ∈ validateFile toLowerCase f,
        v ∉ (handleFileSelect toLowerCase type g (handleFileSelect toLowerCase type f st)).errors)
    ∧ ((∀ v ∈ validateFile toLowerCase f, includes v g.name = false) →
        ∀ v ∈ validateFile toLowerCase f,
        v ∈ (handleFileSelect toLowerCase type g (handleFileSelect toLowerCase type f st)).errors)
    ∧ (handleFileSelect toLowerCase type g (handleFileSelect toLowerCase type f st)).errors.filter
          (fun e => !includes e f.name && !includes e g.name)
        = st.errors.filter (fun e => !includes e f.name && !includes e g.name) := by
  have herr := handleFileSelect_twice_errors toLowerCase type f g st hf hg
  refine ⟨?_, ?_, ?_⟩
  · intro hname v hv hmem
    rw [herr, List.mem_filter] at hmem
    have hvg : includes v g.name = true := by
      rw [hname]
      exact validateFile_includes_name toLowerCase f v hv
    simp [hvg] at hmem
  · intro hfree v hv
    rw [herr, List.mem_filter]
    exact ⟨List.mem_append_right _ hv, by simp [hfree v hv]⟩
  · rw [herr, List.filter_filter, List.filter_append, List.filter_filter]
    have hnone : (validateFile toLowerCase f).filter
        (fun e => (!includes e f.name && !includes e g.name) && !includes e g.name) = [] := by
      rw [List.filter_eq_nil_iff]
      intro v hv
      simp [validateFile_includes_name toLowerCase f v hv]
    rw [hnone, List.append_nil]
    congr 1
    funext e
    cases includes e f.name <;> cases includes e g.name <;> rfl

/-- Witness of C10 as amended: an oversized `squad.html` followed by a valid
file of the same name leaves no violation of the first in the list. -/
theorem handleFileSelect_reassign_witness :
    validateFile asciiLowerCase (File.mk "squad.html" 20000000 (.ok ""))
        = ["squad.html: File size must be under 10MB"]
    ∧ "squad.html: File size must be under 10MB" ∉
      (handleFileSelect asciiLowerCase .signed (File.mk "squad.html" 4000 (.ok ""))
        (handleFileSelect asciiLowerCase .signed (File.mk "squad.html" 20000000 (.ok ""))
          State.init)).errors :=
  ⟨by decide,
   (handleFileSelect_reassign asciiLowerCase .signed (File.mk "squad.html" 20000000 (.ok ""))
      (File.mk "squad.html" 4000 (.ok "")) State.init (by decide) (by decide)).1 rfl
      "squad.html: File size must be under 10MB" (by decide)⟩

/-- Reading a slot after the update `{ ...prev, [type]: file }`. -/
theorem Files.get_set (fs : Files) (type role : Role) (file : File) :
    (fs.set type file).get role = if role = type then some file else fs.get role := by
  cases type <;> cases role <;> rfl

/-- A slot filled in a run from the initial state tells that the role got a
file with zero violations since the last reset, and conversely. -/
theorem slot_isSome_run (toLowerCase : String → String) (actions : List Action) (role : Role) :
    ((run toLowerCase actions State.init).files.get role).isSome
      = acceptedSinceReset toLowerCase role actions := by
  induction actions using List.reverseRecOn with
  | nil => cases role <;> rfl
  | append_singleton earlier action ih =>
    unfold acceptedSinceReset run at *
    rw [List.foldl_append, List.reverse_append]
    cases action with
    | reset => cases role <;> rfl
    | select type file =>
      simp only [List.foldl_cons, List.foldl_nil, step, List.reverse_cons, List.reverse_nil,
        List.nil_append, List.singleton_append, acceptedRecent, List.append_eq]
      rw [handleFileSelect_eq, ← ih]
      by_cases hv : validateFile toLowerCase file = []
      · simp only [hv, if_true, Files.get_set]
        by_cases hr : role = type
        · simp [hr]
        · have hr2 : ¬ type = role := fun h => hr h.symm
          simp [hr, hr2]
      · simp [hv]

/-- C11: in every state reached from the initial state by `handleFileSelect`
and `resetFiles` calls, `allFilesUploaded` is true iff each of the three roles
has received, since the last reset, at least one `handleFileSelect` call whose
validation returned zero violations; it is false in the initial state and
right after every `resetFiles`. -/
theorem allFilesUploaded_iff (toLowerCase : String → String) (actions : List Action) :
    (allFilesUploaded (run toLowerCase actions State.init) = true
        ↔ ∀ role, acceptedSinceReset toLowerCase role actions = true)
    ∧ allFilesUploaded State.init = false
    ∧ ∀ st, allFilesUploaded (resetFiles st) = false := by
  refine ⟨?_, rfl, fun _ => rfl⟩
  have hs := slot_isSome_run toLowerCase actions .signed
  have hl := slot_isSome_run toLowerCase actions .loans
  have hu := slot_isSome_run toLowerCase actions .universal
  simp only [Files.get] at hs hl hu
  simp only [allFilesUploaded, Bool.and_eq_true, hs, hl, hu]
  constructor
  · rintro ⟨⟨h1, h2⟩, h3⟩ role
    cases role <;> assumption
  · intro h
    exact ⟨⟨h .signed, h .loans⟩, h .universal⟩

/-- C12: from every state, `resetFiles` yields the state in which all three
slots are null and the errors list is empty. -/
theorem resetFiles_clears (st : State) :
    (resetFiles st).files = { signed := none, loans := none, universal := none }
    ∧ (resetFiles st).errors = [] :=
  ⟨rfl, rfl⟩

/-- Last character of a string that ends with a given non-empty text. -/
theorem getLast?_append_data (a b : String) (c : Char) (hb : b.data.getLast? = some c) :
    (a ++ b).data.getLast? = some c := by
  rw [String.data_append, List.getLast?_append, hb]
  rfl

/-- No message of the content loop is one of the three `is required` messages:
the former end with `a` or `t`, the latter with `d`. -/
theorem requiredMessage_not_mem_contentErrors (slot : Option File) (role : Role) :
    requiredMessage role ∉ contentErrors slot := by
  have hreq : (requiredMessage role).data.getLast? = some 'd' := by cases role <;> rfl
  have hmsg : ∀ v ∈ contentErrors slot,
      v.data.getLast? = some 'a' ∨ v.data.getLast? = some 't' := by
    intro v hv
    cases slot with
    | none => simp [contentErrors] at hv
    | some file =>
      simp only [contentErrors] at hv
      split at hv
      · split_ifs at hv <;> simp at hv
        all_goals
          first
          | (subst hv; exact Or.inl (getLast?_append_data _ _ _ rfl))
          | (rcases hv with h | h <;> subst h <;> exact Or.inl (getLast?_append_data _ _ _ rfl))
      · simp at hv
        subst hv
        exact Or.inr (getLast?_append_data _ _ _ rfl)
  intro hmem
  rcases hmsg _ hmem with h | h <;> rw [hreq] at h <;> exact absurd h (by decide)

/-- Number of occurrences of an `is required` message among the content messages. -/
theorem count_requiredMessage_contentErrors (slot : Option File) (role : Role) :
    (contentErrors slot).count (requiredMessage role) = 0 :=
  List.count_eq_zero.mpr (requiredMessage_not_mem_contentErrors slot role)

/-- C13: when at least one of the three slots is empty, `handleSubmit` does not
navigate to the processing page; the errors list after it holds the
`is required` message of a role once when the slot of the role is empty and not
at all otherwise; and it navigates exactly when `validateAllFiles` collected no
error. -/
theorem handleSubmit_requires_all_slots (st : State) :
    ((∃ role, st.files.get role = none) → (handleSubmit st).2 = none)
    ∧ (∀ role, (handleSubmit st).1.errors.count (requiredMessage role)
        = if st.files.get role = none then 1 else 0)
    ∧ ((handleSubmit st).2 ≠ none ↔ (validateAllFiles st).1.errors = []) := by
  obtain ⟨⟨s, l, u⟩, errs, v⟩ := st
  have h1 := fun slot => count_requiredMessage_contentErrors slot .signed
  have h2 := fun slot => count_requiredMessage_contentErrors slot .loans
  have h3 := fun slot => count_requiredMessage_contentErrors slot .universal
  simp only [requiredMessage] at h1 h2 h3
  refine ⟨?_, ?_, ?_⟩
  · rintro ⟨role, hrole⟩
    cases s <;> cases l <;> cases u <;> cases role <;> simp [Files.get] at hrole <;>
      simp [handleSubmit, validateAllFiles]
  · intro role
    cases s <;> cases l <;> cases u <;> cases role <;>
      simp [handleSubmit, validateAllFiles, Files.get, List.count_cons, h1, h2, h3,
        requiredMessage]
  · simp [handleSubmit, validateAllFiles]

/-- Witness of C13: with only the signed slot filled, nothing is navigated to
and the loans message is recorded. -/
theorem handleSubmit_requires_all_slots_witness :
    (handleSubmit { files := { signed := some (File.mk "signed.html" 6000 (.ok "<table>")),
                               loans := none, universal := none },
                    errors := [], isValidating := false }).2 = none :=
  (handleSubmit_requires_all_slots
    { files := { signed := some (File.mk "signed.html" 6000 (.ok "<table>")),
                 loans := none, universal := none },
      errors := [], isValidating := false }).1 ⟨.loans, rfl⟩

/-- The local `validateFile` passes exactly the files with the right extension
and a size of at most 10 MiB. -/
theorem validateFile_eq_nil_iff (toLowerCase : String → String) (file : File) :
    validateFile toLowerCase file = []
      ↔ endsWith (toLowerCase file.name) ".html" = true ∧ file.size ≤ 10 * 1024 * 1024 := by
  by_cases h1 : endsWith (toLowerCase file.name) ".html" = true <;>
    by_cases h2 : file.size > 10 * 1024 * 1024 <;>
    simp [validateFile, h1, h2]
  omega

/-- Counterexample to C14: the 50-byte `tiny.html` is rejected by `validateFile`
of `utils/errorHandling.js` (too small) and accepted into the signed slot by
`handleFileSelect`. -/
theorem tiny_file_accepted_without_minimum :
    ErrorHandling.validateFile asciiLowerCase (some (File.mk "tiny.html" 50 (.ok "")))
        = ["File appears to be empty or too small to contain FM24 data"]
    ∧ (handleFileSelect asciiLowerCase .signed (File.mk "tiny.html" 50 (.ok ""))
        State.init).files.signed = some (File.mk "tiny.html" 50 (.ok "")) := by
  refine ⟨by decide, by decide⟩

/-- C14 as amended: slot assignment runs the local `validateFile` of the upload
form.  `handleFileSelect` accepts a file into its slot iff the lower-cased name
ends with `.html` and the size is at most 10 MiB, with no 1000-byte minimum;
`validateFile` of `utils/errorHandling.js` returns the empty list iff, in
addition, the size is at least 1000. -/
theorem handleFileSelect_accepts_iff (toLowerCase : String → String) (type : Role) (file : File)
    (st : State) :
    (handleFileSelect toLowerCase type file st).files
        = (if endsWith (toLowerCase file.name) ".html" = true ∧ file.size ≤ 10 * 1024 * 1024
            then st.files.set type file else st.files)
    ∧ (ErrorHandling.validateFile toLowerCase (some file) = []
        ↔ (endsWith (toLowerCase file.name) ".html" = true ∧ file.size ≤ 10 * 1024 * 1024)
          ∧ 1000 ≤ file.size) := by
  have hmax : ErrorHandling.maxSize = 10 * 1024 * 1024 := rfl
  refine ⟨?_, ?_⟩
  · rw [handleFileSelect_eq]
    by_cases hv : validateFile toLowerCase file = []
    · rw [if_pos hv, if_pos ((validateFile_eq_nil_iff toLowerCase file).mp hv)]
    · rw [if_neg hv, if_neg (fun h => hv ((validateFile_eq_nil_iff toLowerCase file).mpr h))]
  · have h := (ErrorHandling.validateFile_all_rules toLowerCase file)
    rw [h]
    by_cases h1 : endsWith (toLowerCase file.name) ".html" = true <;>
      by_cases h2 : file.size ≤ 10 * 1024 * 1024 <;>
      by_cases h3 : file.size < 1000 <;>
      simp [h1, h2, h3]
    omega

/-- Witness of C14 as amended: a 50-byte `tiny.html` is accepted. -/
theorem handleFileSelect_accepts_iff_witness :
    (handleFileSelect asciiLowerCase .loans (File.mk "tiny.html" 50 (.ok "")) State.init).files
      = { signed := none, loans := some (File.mk "tiny.html" 50 (.ok "")), universal := none } :=
  (handleFileSelect_accepts_iff asciiLowerCase .loans (File.mk "tiny.html" 50 (.ok ""))
    State.init).1.trans (by decide)

end UploadForm

/-! ## Orchestrator -/

namespace ProcessingPage

/-- The catch block of `initializePyodide` leaves the observed calls as they are. -/
theorem catchInitialize_log (error : ErrorHandling.JsValue) (st : State) :
    (catchInitialize error st).log = st.log := by
  unfold catchInitialize
  cases ErrorHandling.getMessage error <;> rfl

/-- The catch block of `processFiles` leaves the observed progress calls as they are. -/
theorem catchProcess_log (error : ErrorHandling.JsValue) (st : State) :
    (catchProcess error st).log = st.log := by
  unfold catchProcess
  cases ErrorHandling.getMessage error <;> rfl

/-- The catch block of `processFiles` leaves the observed reads and engine calls
as they are. -/
theorem catchProcess_calls (error : ErrorHandling.JsValue) (st : State) :
    (catchProcess error st).calls = st.calls := by
  unfold catchProcess
  cases ErrorHandling.getMessage error <;> rfl

/-- Every run ends in one of two ways.  Either an external call fails: then no
artifact is set, the download section stays off, `currentStep` is the stage of
the failing call, the observed calls are an initial part of those of a run
without failure, and the catch block of that stage stores its text about the
thrown value, unless reading `error.message` throws.  Or no call fails: then
the final state is the one written out below. -/
theorem run_cases (env : External) (files : UploadForm.Files) :
    (∃ stage error, failureStage env files = some stage
        ∧ failureValue env files = some error
        ∧ (run env files).processingError
            = (match ErrorHandling.getMessage error with
               | .error _ => none
               | .ok message =>
                 some ((if stage = 1 then "Failed to initialize Python environment: "
                        else "Processing failed: ") ++ templateString message))
        ∧ (run env files).excelBlob = none
        ∧ (run env files).showEmailInput = false
        ∧ (run env files).currentStep = stage
        ∧ (run env files).log ∈ successLog.inits)
    ∨ (failureStage env files = none
        ∧ failureValue env files = none
        ∧ ∃ signedContent loansContent universalContent b,
            readSlot files.signed = .ok signedContent
            ∧ readSlot files.loans = .ok loansContent
            ∧ readSlot files.universal = .ok universalContent
            ∧ env.runMain signedContent loansContent universalContent = .ok (.bytes b)
            ∧ run env files
              = { currentStep := 4, progress := 100, pyodide := true, processingError := none,
                  completedSteps := [1, 2, 3], showEmailInput := true,
                  excelBlob := some { bytes := b, type := spreadsheetType },
                  log := successLog,
                  calls := [.read .signed, .read .loans, .read .universal,
                    .engine signedContent loansContent universalContent] }) := by
  rcases h1 : env.loadPyodide with m | u
  · left
    refine ⟨1, m, ?_, ?_, ?_, ?_, ?_, ?_, ?_⟩ <;>
      (cases hg : ErrorHandling.getMessage m <;> simp [run, initializePyodide, processFiles, tryCall, failureStage, failureValue, thrownValue,
      List.findSome?, environmentFails, ingestFails, transformFails, engineOutcome, failed,
      updateProgress, markStepComplete, recordCall, catchInitialize, catchProcess, State.init,
      successLog, List.inits, *])
  rcases h2 : env.loadPackages with m | u
  · left
    refine ⟨1, m, ?_, ?_, ?_, ?_, ?_, ?_, ?_⟩ <;>
      (cases hg : ErrorHandling.getMessage m <;> simp [run, initializePyodide, processFiles, tryCall, failureStage, failureValue, thrownValue,
      List.findSome?, environmentFails, ingestFails, transformFails, engineOutcome, failed,
      updateProgress, markStepComplete, recordCall, catchInitialize, catchProcess, State.init,
      successLog, List.inits, *])
  rcases h3 : env.loadMicropip with m | u
  · left
    refine ⟨1, m, ?_, ?_, ?_, ?_, ?_, ?_, ?_⟩ <;>
      (cases hg : ErrorHandling.getMessage m <;> simp [run, initializePyodide, processFiles, tryCall, failureStage, failureValue, thrownValue,
      List.findSome?, environmentFails, ingestFails, transformFails, engineOutcome, failed,
      updateProgress, markStepComplete, recordCall, catchInitialize, catchProcess, State.init,
      successLog, List.inits, *])
  rcases h4 : env.pyimportMicropip with m | u
  · left
    refine ⟨1, m, ?_, ?_, ?_, ?_, ?_, ?_, ?_⟩ <;>
      (cases hg : ErrorHandling.getMessage m <;> simp [run, initializePyodide, processFiles, tryCall, failureStage, failureValue, thrownValue,
      List.findSome?, environmentFails, ingestFails, transformFails, engineOutcome, failed,
      updateProgress, markStepComplete, recordCall, catchInitialize, catchProcess, State.init,
      successLog, List.inits, *])
  rcases h5 : env.installHtml5lib with m | u
  · left
    refine ⟨1, m, ?_, ?_, ?_, ?_, ?_, ?_, ?_⟩ <;>
      (cases hg : ErrorHandling.getMessage m <;> simp [run, initializePyodide, processFiles, tryCall, failureStage, failureValue, thrownValue,
      List.findSome?, environmentFails, ingestFails, transformFails, engineOutcome, failed,
      updateProgress, markStepComplete, recordCall, catchInitialize, catchProcess, State.init,
      successLog, List.inits, *])
  rcases h6 : env.fetchScript with m | u
  · left
    refine ⟨1, m, ?_, ?_, ?_, ?_, ?_, ?_, ?_⟩ <;>
      (cases hg : ErrorHandling.getMessage m <;> simp [run, initializePyodide, processFiles, tryCall, failureStage, failureValue, thrownValue,
      List.findSome?, environmentFails, ingestFails, transformFails, engineOutcome, failed,
      updateProgress, markStepComplete, recordCall, catchInitialize, catchProcess, State.init,
      successLog, List.inits, *])
  rcases h7 : env.responseText with m | u
  · left
    refine ⟨1, m, ?_, ?_, ?_, ?_, ?_, ?_, ?_⟩ <;>
      (cases hg : ErrorHandling.getMessage m <;> simp [run, initializePyodide, processFiles, tryCall, failureStage, failureValue, thrownValue,
      List.findSome?, environmentFails, ingestFails, transformFails, engineOutcome, failed,
      updateProgress, markStepComplete, recordCall, catchInitialize, catchProcess, State.init,
      successLog, List.inits, *])
  rcases h8 : env.runScript with m | u
  · left
    refine ⟨1, m, ?_, ?_, ?_, ?_, ?_, ?_, ?_⟩ <;>
      (cases hg : ErrorHandling.getMessage m <;> simp [run, initializePyodide, processFiles, tryCall, failureStage, failureValue, thrownValue,
      List.findSome?, environmentFails, ingestFails, transformFails, engineOutcome, failed,
      updateProgress, markStepComplete, recordCall, catchInitialize, catchProcess, State.init,
      successLog, List.inits, *])
  rcases h9 : readSlot files.signed with m | signedContent
  · left
    refine ⟨2, m, ?_, ?_, ?_, ?_, ?_, ?_, ?_⟩ <;>
      (cases hg : ErrorHandling.getMessage m <;> simp [run, initializePyodide, processFiles, tryCall, failureStage, failureValue, thrownValue,
      List.findSome?, environmentFails, ingestFails, transformFails, engineOutcome, failed,
      updateProgress, markStepComplete, recordCall, catchInitialize, catchProcess, State.init,
      successLog, List.inits, *])
  rcases h10 : readSlot files.loans with m | loansContent
  · left
    refine ⟨2, m, ?_, ?_, ?_, ?_, ?_, ?_, ?_⟩ <;>
      (cases hg : ErrorHandling.getMessage m <;> simp [run, initializePyodide, processFiles, tryCall, failureStage, failureValue, thrownValue,
      List.findSome?, environmentFails, ingestFails, transformFails, engineOutcome, failed,
      updateProgress, markStepComplete, recordCall, catchInitialize, catchProcess, State.init,
      successLog, List.inits, *])
  rcases h11 : readSlot files.universal with m | universalContent
  · left
    refine ⟨2, m, ?_, ?_, ?_, ?_, ?_, ?_, ?_⟩ <;>
      (cases hg : ErrorHandling.getMessage m <;> simp [run, initializePyodide, processFiles, tryCall, failureStage, failureValue, thrownValue,
      List.findSome?, environmentFails, ingestFails, transformFails, engineOutcome, failed,
      updateProgress, markStepComplete, recordCall, catchInitialize, catchProcess, State.init,
      successLog, List.inits, *])
  rcases h12 : env.setSigned with m | u
  · left
    refine ⟨3, m, ?_, ?_, ?_, ?_, ?_, ?_, ?_⟩ <;>
      (cases hg : ErrorHandling.getMessage m <;> simp [run, initializePyodide, processFiles, tryCall, failureStage, failureValue, thrownValue,
      List.findSome?, environmentFails, ingestFails, transformFails, engineOutcome, failed,
      updateProgress, markStepComplete, recordCall, catchInitialize, catchProcess, State.init,
      successLog, List.inits, *])
  rcases h13 : env.setLoans with m | u
  · left
    refine ⟨3, m, ?_, ?_, ?_, ?_, ?_, ?_, ?_⟩ <;>
      (cases hg : ErrorHandling.getMessage m <;> simp [run, initializePyodide, processFiles, tryCall, failureStage, failureValue, thrownValue,
      List.findSome?, environmentFails, ingestFails, transformFails, engineOutcome, failed,
      updateProgress, markStepComplete, recordCall, catchInitialize, catchProcess, State.init,
      successLog, List.inits, *])
  rcases h14 : env.setUniversal with m | u
  · left
    refine ⟨3, m, ?_, ?_, ?_, ?_, ?_, ?_, ?_⟩ <;>
      (cases hg : ErrorHandling.getMessage m <;> simp [run, initializePyodide, processFiles, tryCall, failureStage, failureValue, thrownValue,
      List.findSome?, environmentFails, ingestFails, transformFails, engineOutcome, failed,
      updateProgress, markStepComplete, recordCall, catchInitialize, catchProcess, State.init,
      successLog, List.inits, *])
  rcases h15 : env.runMain signedContent loansContent universalContent with m | result
  · left
    refine ⟨3, m, ?_, ?_, ?_, ?_, ?_, ?_, ?_⟩ <;>
      (cases hg : ErrorHandling.getMessage m <;> simp [run, initializePyodide, processFiles, tryCall, failureStage, failureValue, thrownValue,
      List.findSome?, environmentFails, ingestFails, transformFails, engineOutcome, failed,
      updateProgress, markStepComplete, recordCall, catchInitialize, catchProcess, State.init,
      successLog, List.inits, *])
  cases result with
  | unconvertible reason =>
    left
    refine ⟨3, .obj (.str reason), ?_, ?_, ?_, ?_, ?_, ?_, ?_⟩ <;>
      simp [run, initializePyodide, processFiles, tryCall, failureStage, failureValue, thrownValue,
      List.findSome?, environmentFails, ingestFails, transformFails, engineOutcome, failed,
      updateProgress, markStepComplete, recordCall, catchInitialize, catchProcess, State.init,
      successLog, List.inits, ErrorHandling.getMessage, templateString, *]
  | bytes b =>
    right
    refine ⟨?_, ?_, signedContent, loansContent, universalContent, b, rfl, rfl, rfl, h15, ?_⟩ <;>
      simp [run, initializePyodide, processFiles, tryCall, failureStage, failureValue, thrownValue,
      List.findSome?, environmentFails, ingestFails, transformFails, engineOutcome, failed,
      updateProgress, markStepComplete, recordCall, catchInitialize, catchProcess, State.init,
      successLog, List.inits, *]

/-- Every run observes an initial part of the calls of the run without
failure, and all of them when no external call fails. -/
theorem run_log (env : External) (files : UploadForm.Files) :
    (run env files).log ∈ successLog.inits
    ∧ (failureStage env files = none →
        (run env files).log = successLog ∧ (run env files).completedSteps = [1, 2, 3]) := by
  rcases run_cases env files with
    ⟨stage, _, hs, -, -, -, -, -, hlog⟩ | ⟨-, -, _, _, _, _, -, -, -, -, hrun⟩
  · exact ⟨hlog, fun h => by simp [hs] at h⟩
  · refine ⟨?_, fun _ => by simp [hrun]⟩
    rw [hrun]
    exact (List.mem_inits _ _).mpr (List.prefix_refl _)

/-- C18: in every run, whichever external calls succeed or fail, every percent
passed to `updateProgress` lies in [0, 100] and every stage passed to it is one
of 1, 2, 3, 4. -/
theorem progress_in_range (env : External) (files : UploadForm.Files) (step : Nat)
    (percent : Int) (h : Event.progress step percent ∈ (run env files).log) :
    0 ≤ percent ∧ percent ≤ 100 ∧ (step = 1 ∨ step = 2 ∨ step = 3 ∨ step = 4) := by
  have hmem : Event.progress step percent ∈ successLog :=
    (List.mem_inits _ _).mp (run_log env files).1 |>.subset h
  simp only [successLog, List.mem_cons, List.mem_singleton, List.not_mem_nil, or_false,
    Event.progress.injEq, reduceCtorEq, false_or, or_false] at hmem
  rcases hmem with h | h | h | h | h | h | h | h | h | h | h | h | h <;>
    obtain ⟨rfl, rfl⟩ := h <;> decide

/-- Witness of C18: the last report of a run without failure. -/
theorem progress_in_range_witness :
    Event.progress 4 100 ∈ (run (External.allOk [80, 75, 3, 4]) sampleFiles).log
    ∧ (0 : Int) ≤ 100 ∧ (100 : Int) ≤ 100
    ∧ ((4 : Nat) = 1 ∨ (4 : Nat) = 2 ∨ (4 : Nat) = 3 ∨ (4 : Nat) = 4) :=
  ⟨by decide, progress_in_range (External.allOk [80, 75, 3, 4]) sampleFiles 4 100 (by decide)⟩

/-- C19: in every run in which no external call fails the observed calls are
exactly the sixteen below: `markStepComplete` is called for stage 1, 2 and 3
once each, in that order, each after the last progress report of its stage and
before the first report of the next stage, and `completedSteps` grows from the
empty set to `{1}`, `{1, 2}`, `{1, 2, 3}`. -/
theorem successful_run_completes_in_order (env : External) (files : UploadForm.Files)
    (h : failureStage env files = none) :
    (run env files).log
      = [.progress 1 10, .progress 1 30, .progress 1 60, .progress 1 90, .completed 1 [1],
         .progress 2 0, .progress 2 10, .progress 2 30, .progress 2 50, .progress 2 70,
         .completed 2 [1, 2], .progress 3 0, .progress 3 20, .progress 3 90,
         .completed 3 [1, 2, 3], .progress 4 100]
    ∧ State.init.completedSteps = []
    ∧ (run env files).completedSteps = [1, 2, 3] :=
  ⟨((run_log env files).2 h).1, rfl, ((run_log env files).2 h).2⟩

/-- Witness of C19: the run in which every call succeeds. -/
theorem successful_run_completes_in_order_witness :
    failureStage (External.allOk [80, 75, 3, 4]) sampleFiles = none
    ∧ (run (External.allOk [80, 75, 3, 4]) sampleFiles).completedSteps = [1, 2, 3] :=
  ⟨by decide,
   (successful_run_completes_in_order (External.allOk [80, 75, 3, 4]) sampleFiles
    (by decide)).2.2⟩

/-- C20: in the progress reports of every run, read after the initial state
(stage 1, percent 0), the stage never decreases, consecutive reports of one
stage have non-decreasing percent, the first report of a stage entered from
another stage has percent 0, except stage 4, whose report has percent 100 and
occurs at most once. -/
theorem reports_monotone (env : External) (files : UploadForm.Files) :
    List.Chain' ReportStep
      ((State.init.currentStep, State.init.progress) :: reports (run env files).log)
    ∧ (∀ r ∈ reports (run env files).log, r.1 = 4 → r.2 = 100)
    ∧ ((reports (run env files).log).filter (fun r => r.1 = 4)).length ≤ 1 := by
  have key : ∀ l ∈ successLog.inits,
      List.Chain' ReportStep ((State.init.currentStep, State.init.progress) :: reports l)
      ∧ (∀ r ∈ reports l, r.1 = 4 → r.2 = 100)
      ∧ ((reports l).filter (fun r => r.1 = 4)).length ≤ 1 := by
    intro l hl
    simp only [successLog, List.inits, List.map, List.mem_cons, List.mem_singleton,
      List.not_mem_nil, or_false] at hl
    rcases hl with rfl | rfl | rfl | rfl | rfl | rfl | rfl | rfl | rfl | rfl | rfl | rfl | rfl | rfl | rfl | rfl | rfl
    all_goals
      refine ⟨?_, by decide, by decide⟩
      simp only [reports, List.filterMap, List.chain'_cons, List.chain'_singleton, and_true] <;>
        decide
  exact key _ (run_log env files).1

/-- C21, evaluated on the code: in every run in which an external call of
stage 1, 2 or 3 fails, no artifact is set, the download section is off and
`currentStep` is the stage of the failing call; but a processing error is set
only if the value thrown is not null or undefined.  When `window.loadPyodide`
rejects with undefined or with null, the catch block throws on `error.message`
and `processingError` stays null. -/
theorem nullish_rejection_sets_no_error (env : External) (files : UploadForm.Files) :
    (∀ stage, failureStage env files = some stage →
        (run env files).excelBlob = none
        ∧ downloadSectionShown (run env files) = false
        ∧ (run env files).currentStep = stage
        ∧ ∃ error, failureValue env files = some error
            ∧ ((run env files).processingError ≠ none ↔ nullish error = false))
    ∧ failureStage (External.bootRejects (.prim .undefined)) sampleFiles = some 1
    ∧ (run (External.bootRejects (.prim .undefined)) sampleFiles).processingError = none
    ∧ (run (External.bootRejects (.prim .null)) sampleFiles).processingError = none
    ∧ (run (External.bootRejects (.obj (.str "boot failed"))) sampleFiles).processingError
        = some "Failed to initialize Python environment: boot failed" := by
  refine ⟨?_, by decide, by decide, by decide, by decide⟩
  intro stage h
  rcases run_cases env files with
    ⟨stage', error, hs, hv, herr, hblob, hshow, hstep, -⟩ | ⟨hnone, -⟩
  · rw [hs] at h
    obtain rfl : stage' = stage := Option.some.inj h
    refine ⟨hblob, by simp [downloadSectionShown, hshow], hstep, error, hv, ?_⟩
    rw [herr]
    cases error with
    | prim p => cases p <;> simp [ErrorHandling.getMessage, nullish]
    | obj m => simp [ErrorHandling.getMessage, nullish]
  · rw [hnone] at h
    exact absurd h (by simp)

/-- Counterexample to C22: the engine returns the empty byte sequence, and the
run sets an artifact of zero bytes and reaches stage 4. -/
theorem empty_result_reaches_finalize :
    engineOutcome (External.allOk []) sampleFiles = some (.ok (.bytes []))
    ∧ (run (External.allOk []) sampleFiles).excelBlob
        = some { bytes := [], type := spreadsheetType }
    ∧ (run (External.allOk []) sampleFiles).currentStep = 4 := by
  refine ⟨by decide, by decide, by decide⟩

/-- C22 as amended: the session leaves the Transform stage for Finalize only if
no call failed and the engine returned a byte sequence, which may be empty:
stage 4 is reached exactly when no external call fails, the artifact then holds
the bytes the engine returned, and a run in which no call fails and the engine
returns the empty sequence sets an artifact of zero bytes and reaches stage 4. -/
theorem finalize_iff_no_failure (env : External) (files : UploadForm.Files) :
    ((run env files).currentStep = 4 ↔ failureStage env files = none)
    ∧ ((run env files).currentStep = 4 →
        ∃ b, engineOutcome env files = some (.ok (.bytes b))
          ∧ (run env files).excelBlob = some { bytes := b, type := spreadsheetType })
    ∧ (failureStage env files = none → engineOutcome env files = some (.ok (.bytes [])) →
        (run env files).currentStep = 4
        ∧ (run env files).excelBlob = some { bytes := [], type := spreadsheetType }) := by
  rcases run_cases env files with
    ⟨stage, _, hs, -, -, -, -, hstep, -⟩ | ⟨hnone, -, sc, lc, uc, b, h1, h2, h3, h4, hrun⟩
  · have hne : stage ≠ 4 := by
      intro h4
      subst h4
      revert hs
      simp only [failureStage]
      split_ifs <;> simp
    refine ⟨?_, ?_, ?_⟩
    · simp [hs, hstep, hne]
    · intro h
      exact absurd (hstep.symm.trans h) hne
    · intro h
      simp [hs] at h
  · have hout : engineOutcome env files = some (.ok (.bytes b)) := by
      simp [engineOutcome, h1, h2, h3, h4]
    refine ⟨by simp [hnone, hrun], fun _ => ⟨b, hout, by simp [hrun]⟩, ?_⟩
    intro _ hempty
    rw [hout] at hempty
    have hb : b = [] := by simpa using hempty
    subst hb
    simp [hrun]

/-- Witness of C22 as amended: a run whose engine returns no bytes at all. -/
theorem finalize_iff_no_failure_witness :
    (run (External.allOk []) sampleFiles).currentStep = 4
    ∧ (run (External.allOk []) sampleFiles).excelBlob
        = some { bytes := [], type := spreadsheetType } :=
  (finalize_iff_no_failure (External.allOk []) sampleFiles).2.2 (by decide) (by decide)

/-- C23: for every run in which no external call fails and the engine returns
the byte sequence `b`, the final state has `currentStep = 4` and `progress = 100`,
the artifact is a blob of exactly the bytes `b` with the spreadsheet media
type, the download section is shown and `downloadExcel` offers that blob under
the name `FM24_Moneyball_Analysis.xlsx`. -/
theorem successful_run_artifact (env : External) (files : UploadForm.Files) (b : List Nat)
    (h : failureStage env files = none)
    (hb : engineOutcome env files = some (.ok (.bytes b))) :
    (run env files).currentStep = 4
    ∧ (run env files).progress = 100
    ∧ (run env files).excelBlob
        = some { bytes := b,
                 type := "application/vnd.openxmlformats-officedocument.spreadsheetml.sheet" }
    ∧ downloadSectionShown (run env files) = true
    ∧ downloadExcel (run env files)
        = some { filename := "FM24_Moneyball_Analysis.xlsx",
                 blob := {
                   bytes := b,
                   type := "application/vnd.openxmlformats-officedocument.spreadsheetml.sheet" } } := by
  rcases run_cases env files with
    ⟨_, _, hs, -, -, -, -, -, -⟩ | ⟨-, -, sc, lc, uc, b', h1, h2, h3, h4, hrun⟩
  · simp [hs] at h
  · have hout : engineOutcome env files = some (.ok (.bytes b')) := by
      simp [engineOutcome, h1, h2, h3, h4]
    rw [hout] at hb
    have hbb : b' = b := by simpa using hb
    subst hbb
    simp [hrun, downloadSectionShown, downloadExcel, spreadsheetType]

/-- Witness of C23: a result of twelve bytes gives an artifact of twelve bytes. -/
theorem successful_run_artifact_witness :
    (downloadExcel (run (External.allOk [80, 75, 3, 4, 20, 0, 0, 0, 8, 0, 0, 0])
        sampleFiles)).map (fun d => (d.blob.bytes.length, d.filename))
      = some (12, "FM24_Moneyball_Analysis.xlsx") :=
  congrArg (Option.map (fun d => (d.blob.bytes.length, d.filename)))
    (successful_run_artifact (External.allOk [80, 75, 3, 4, 20, 0, 0, 0, 8, 0, 0, 0]) sampleFiles
      [80, 75, 3, 4, 20, 0, 0, 0, 8, 0, 0, 0] (by decide) (by decide)).2.2.2.2

/-- C26: in every run, a non-null `excelBlob` in the final state comes with
`currentStep = 4`, `progress = 100`, `completedSteps = {1, 2, 3}` and no
processing error; and `downloadExcel` does nothing while `excelBlob` is null. -/
theorem artifact_only_from_finalize (env : External) (files : UploadForm.Files) :
    ((run env files).excelBlob ≠ none →
        (run env files).currentStep = 4 ∧ (run env files).progress = 100
        ∧ (run env files).completedSteps = [1, 2, 3]
        ∧ (run env files).processingError = none)
    ∧ ∀ st : State, st.excelBlob = none → downloadExcel st = none := by
  refine ⟨fun hblob => ?_, fun st hst => by simp [downloadExcel, hst]⟩
  rcases run_cases env files with
    ⟨_, _, -, -, -, hnone, -, -, -⟩ | ⟨-, -, _, _, _, _, -, -, -, -, hrun⟩
  · exact absurd hnone hblob
  · simp [hrun]

/-- Witness of C26: the artifact of a run in which every call succeeds. -/
theorem artifact_only_from_finalize_witness :
    (run (External.allOk [80, 75]) sampleFiles).currentStep = 4
    ∧ (run (External.allOk [80, 75]) sampleFiles).progress = 100
    ∧ (run (External.allOk [80, 75]) sampleFiles).completedSteps = [1, 2, 3]
    ∧ (run (External.allOk [80, 75]) sampleFiles).processingError = none :=
  (artifact_only_from_finalize (External.allOk [80, 75]) sampleFiles).1 (by decide)

/-- Counterexample to C24: the read of the loans slot is rejected; the
universal slot is not read and the engine is not invoked. -/
theorem failed_read_stops_ingest :
    (processFiles (External.allOk [80, 75])
        { signed := some (File.mk "signed.html" 6000 (.ok "<table>signed</table>")),
          loans := some (File.mk "loans.html" 6000 (.failed "NotReadableError")),
          universal := some (File.mk "universal.html" 6000 (.ok "<table>universal</table>")) }
        State.init).calls
      = [.read .signed, .read .loans] := by
  decide

/-- C24 as amended: for every batch whose three reads succeed and whose texts
are stored in the globals without failure, `processFiles` reads the slots in
the order signed, loans, universal and then invokes the engine entry point
exactly once, with the three texts read, in that order, whether or not the
engine call then succeeds.  When a read or a store fails, the calls made are
the first one, two or three reads in that order, and the engine is not invoked. -/
theorem processFiles_calls (env : External) (files : UploadForm.Files) (st : State) :
    (∀ s l u, readSlot files.signed = .ok s → readSlot files.loans = .ok l →
        readSlot files.universal = .ok u → env.setSigned = .ok () → env.setLoans = .ok () →
        env.setUniversal = .ok () →
        (processFiles env files st).calls
          = st.calls ++ [.read .signed, .read .loans, .read .universal, .engine s l u])
    ∧ ((ingestFails files = true ∨ failed env.setSigned = true ∨ failed env.setLoans = true
          ∨ failed env.setUniversal = true) →
        ∃ k, 1 ≤ k ∧ k ≤ 3
          ∧ (processFiles env files st).calls
            = st.calls ++ [Call.read .signed, Call.read .loans, Call.read .universal].take k) := by
  rcases h1 : readSlot files.signed with m | signedContent
  · refine ⟨by simp, fun _ => ⟨1, by omega, by omega, by simp [processFiles, tryCall, updateProgress, markStepComplete, recordCall, catchProcess_calls,
      ingestFails, failed, *]⟩⟩
  rcases h2 : readSlot files.loans with m | loansContent
  · refine ⟨by simp, fun _ => ⟨2, by omega, by omega, by simp [processFiles, tryCall, updateProgress, markStepComplete, recordCall, catchProcess_calls,
      ingestFails, failed, *]⟩⟩
  rcases h3 : readSlot files.universal with m | universalContent
  · refine ⟨by simp, fun _ => ⟨3, by omega, by omega, by simp [processFiles, tryCall, updateProgress, markStepComplete, recordCall, catchProcess_calls,
      ingestFails, failed, *]⟩⟩
  rcases h4 : env.setSigned with m | u
  · refine ⟨by simp, fun _ => ⟨3, by omega, by omega, by simp [processFiles, tryCall, updateProgress, markStepComplete, recordCall, catchProcess_calls,
      ingestFails, failed, *]⟩⟩
  rcases h5 : env.setLoans with m | u
  · refine ⟨by simp, fun _ => ⟨3, by omega, by omega, by simp [processFiles, tryCall, updateProgress, markStepComplete, recordCall, catchProcess_calls,
      ingestFails, failed, *]⟩⟩
  rcases h6 : env.setUniversal with m | u
  · refine ⟨by simp, fun _ => ⟨3, by omega, by omega, by simp [processFiles, tryCall, updateProgress, markStepComplete, recordCall, catchProcess_calls,
      ingestFails, failed, *]⟩⟩
  rcases h7 : env.runMain signedContent loansContent universalContent with m | result
  · refine ⟨?_, ?_⟩
    · intro s l u hs hl hu _ _ _
      simp only [Except.ok.injEq] at hs hl hu
      subst hs hl hu
      simp [processFiles, tryCall, updateProgress, markStepComplete, recordCall, catchProcess_calls,
      ingestFails, failed, *]
    · intro h
      simp [ingestFails, failed, h1, h2, h3] at h
  cases result with
  | unconvertible reason =>
    refine ⟨?_, ?_⟩
    · intro s l u hs hl hu _ _ _
      simp only [Except.ok.injEq] at hs hl hu
      subst hs hl hu
      simp [processFiles, tryCall, updateProgress, markStepComplete, recordCall, catchProcess_calls,
      ingestFails, failed, *]
    · intro h
      simp [ingestFails, failed, h1, h2, h3] at h
  | bytes b =>
    refine ⟨?_, ?_⟩
    · intro s l u hs hl hu _ _ _
      simp only [Except.ok.injEq] at hs hl hu
      subst hs hl hu
      simp [processFiles, tryCall, updateProgress, markStepComplete, recordCall, catchProcess_calls,
      ingestFails, failed, *]
    · intro h
      simp [ingestFails, failed, h1, h2, h3] at h

/-- Witness of C24 as amended: the three sample files are read in order and
the engine gets their three texts. -/
theorem processFiles_calls_witness :
    (processFiles (External.engineThrows "KeyError: Name") sampleFiles State.init).calls
      = [.read .signed, .read .loans, .read .universal,
         .engine "<table>signed</table>" "<table>loans</table>" "<table>universal</table>"] :=
  (processFiles_calls (External.engineThrows "KeyError: Name") sampleFiles State.init).1
    "<table>signed</table>" "<table>loans</table>" "<table>universal</table>"
    rfl rfl rfl rfl rfl rfl

/-- Counterexample to C27: the Ingest reports of a run without failure are
0, 10, 30, 50, 70; each read adds 20, and three times 20 is neither the full
scale of 100 nor the 70 points that the stage reports in all. -/
theorem read_share_is_not_a_third :
    ingestReports (run (External.allOk [80, 75]) sampleFiles)
      = [(2, 0), (2, 10), (2, 30), (2, 50), (2, 70)]
    ∧ 3 * ((30 : Int) - 10) ≠ progressScale
    ∧ 3 * ((30 : Int) - 10) ≠ 70 - 0 := by
  refine ⟨by decide, by decide, by decide⟩

/-- C27 as amended: when stage 1 succeeds, the Ingest reports of a run are 0,
then 10, then `10 + 20 * i` after the `i`-th successful read, up to the first
read that fails: each of the three reads advances the report by the same
amount, 20 points, which is one third of the 60 points from 10 to 70 that the
reads cover, not of the scale of 100. -/
theorem ingest_reports (env : External) (files : UploadForm.Files)
    (h : environmentFails env = false) :
    ingestReports (run env files)
      = (2, 0) :: (List.range (readsCompleted files + 1)).map
          (fun i => ((2 : Nat), (10 : Int) + 20 * (i : Int)))
    ∧ (20 : Int) * 3 = 70 - 10 := by
  refine ⟨?_, by decide⟩
  revert h
  rcases h1 : env.loadPyodide with m | u
  · simp [run, initializePyodide, processFiles, tryCall, environmentFails, failed, updateProgress,
      markStepComplete, recordCall, catchInitialize_log, catchProcess_log, State.init, ingestReports,
      reports, readsCompleted, List.range_succ, List.range_zero, *]
  rcases h2 : env.loadPackages with m | u
  · simp [run, initializePyodide, processFiles, tryCall, environmentFails, failed, updateProgress,
      markStepComplete, recordCall, catchInitialize_log, catchProcess_log, State.init, ingestReports,
      reports, readsCompleted, List.range_succ, List.range_zero, *]
  rcases h3 : env.loadMicropip with m | u
  · simp [run, initializePyodide, processFiles, tryCall, environmentFails, failed, updateProgress,
      markStepComplete, recordCall, catchInitialize_log, catchProcess_log, State.init, ingestReports,
      reports, readsCompleted, List.range_succ, List.range_zero, *]
  rcases h4 : env.pyimportMicropip with m | u
  · simp [run, initializePyodide, processFiles, tryCall, environmentFails, failed, updateProgress,
      markStepComplete, recordCall, catchInitialize_log, catchProcess_log, State.init, ingestReports,
      reports, readsCompleted, List.range_succ, List.range_zero, *]
  rcases h5 : env.installHtml5lib with m | u
  · simp [run, initializePyodide, processFiles, tryCall, environmentFails, failed, updateProgress,
      markStepComplete, recordCall, catchInitialize_log, catchProcess_log, State.init, ingestReports,
      reports, readsCompleted, List.range_succ, List.range_zero, *]
  rcases h6 : env.fetchScript with m | u
  · simp [run, initializePyodide, processFiles, tryCall, environmentFails, failed, updateProgress,
      markStepComplete, recordCall, catchInitialize_log, catchProcess_log, State.init, ingestReports,
      reports, readsCompleted, List.range_succ, List.range_zero, *]
  rcases h7 : env.responseText with m | u
  · simp [run, initializePyodide, processFiles, tryCall, environmentFails, failed, updateProgress,
      markStepComplete, recordCall, catchInitialize_log, catchProcess_log, State.init, ingestReports,
      reports, readsCompleted, List.range_succ, List.range_zero, *]
  rcases h8 : env.runScript with m | u
  · simp [run, initializePyodide, processFiles, tryCall, environmentFails, failed, updateProgress,
      markStepComplete, recordCall, catchInitialize_log, catchProcess_log, State.init, ingestReports,
      reports, readsCompleted, List.range_succ, List.range_zero, *]
  rcases h9 : readSlot files.signed with m | signedContent
  · simp [run, initializePyodide, processFiles, tryCall, environmentFails, failed, updateProgress,
      markStepComplete, recordCall, catchInitialize_log, catchProcess_log, State.init, ingestReports,
      reports, readsCompleted, List.range_succ, List.range_zero, *]
  rcases h10 : readSlot files.loans with m | loansContent
  · simp [run, initializePyodide, processFiles, tryCall, environmentFails, failed, updateProgress,
      markStepComplete, recordCall, catchInitialize_log, catchProcess_log, State.init, ingestReports,
      reports, readsCompleted, List.range_succ, List.range_zero, *]
  rcases h11 : readSlot files.universal with m | universalContent
  · simp [run, initializePyodide, processFiles, tryCall, environmentFails, failed, updateProgress,
      markStepComplete, recordCall, catchInitialize_log, catchProcess_log, State.init, ingestReports,
      reports, readsCompleted, List.range_succ, List.range_zero, *]
  rcases h12 : env.setSigned with m | u
  · simp [run, initializePyodide, processFiles, tryCall, environmentFails, failed, updateProgress,
      markStepComplete, recordCall, catchInitialize_log, catchProcess_log, State.init, ingestReports,
      reports, readsCompleted, List.range_succ, List.range_zero, *]
  rcases h13 : env.setLoans with m | u
  · simp [run, initializePyodide, processFiles, tryCall, environmentFails, failed, updateProgress,
      markStepComplete, recordCall, catchInitialize_log, catchProcess_log, State.init, ingestReports,
      reports, readsCompleted, List.range_succ, List.range_zero, *]
  rcases h14 : env.setUniversal with m | u
  · simp [run, initializePyodide, processFiles, tryCall, environmentFails, failed, updateProgress,
      markStepComplete, recordCall, catchInitialize_log, catchProcess_log, State.init, ingestReports,
      reports, readsCompleted, List.range_succ, List.range_zero, *]
  rcases h15 : env.runMain signedContent loansContent universalContent with m | result
  · simp [run, initializePyodide, processFiles, tryCall, environmentFails, failed, updateProgress,
      markStepComplete, recordCall, catchInitialize_log, catchProcess_log, State.init, ingestReports,
      reports, readsCompleted, List.range_succ, List.range_zero, *]
  cases result <;> simp [run, initializePyodide, processFiles, tryCall, environmentFails, failed, updateProgress,
      markStepComplete, recordCall, catchInitialize_log, catchProcess_log, State.init, ingestReports,
      reports, readsCompleted, List.range_succ, List.range_zero, *]

/-- Witness of C27 as amended: the loans read fails, the reports stop at 30. -/
theorem ingest_reports_witness :
    ingestReports (run (External.allOk [80, 75])
        { signed := some (File.mk "signed.html" 6000 (.ok "<table>signed</table>")),
          loans := some (File.mk "loans.html" 6000 (.failed "NotReadableError")),
          universal := none })
      = [(2, 0), (2, 10), (2, 30)] :=
  (ingest_reports (External.allOk [80, 75])
    { signed := some (File.mk "signed.html" 6000 (.ok "<table>signed</table>")),
      loans := some (File.mk "loans.html" 6000 (.failed "NotReadableError")),
      universal := none } (by decide)).1.trans (by decide)

end ProcessingPage

end Moneyball
